import Mathlib

/-!
Verification development for the FPL MCP HTTP server (src/main.py).
The Python module is shallowly embedded: module-level mutable state
(response cache, authenticated session) becomes explicit state passing,
network effects become explicit outcome parameters, and fallible code
returns Except / structured error sums.  Monetary amounts and float
arithmetic are modelled over ℚ.
-/

namespace FPL

/-! ## Response cache (src/main.py lines 34-96)

The module-level dict `_cache : Dict[str, (datetime, Any)]` is embedded as
an association list keyed by the cache key string; `datetime.now()` is an
explicit `now : Int` parameter (seconds), `CACHE_TTL = timedelta(hours=1)`
is 3600 seconds.  The upstream response for the call is the explicit
`upstream` parameter; `networkCall` records whether the HTTP GET happened.
-/

def CACHE_TTL : Int := 3600

/-- One Python-dict style association list lookup (`key in _cache` plus
`_cache[key]`). -/
def cacheLookup {α : Type} (c : List (String × Int × α)) (k : String) :
    Option (Int × α) :=
  (c.find? (fun e => decide (e.1 = k))).map (·.2)

/-- Python dict assignment `_cache[key] = (now, data)`: overwrites any
previous entry for the key. -/
def cacheStore {α : Type} (c : List (String × Int × α)) (k : String)
    (v : Int × α) : List (String × Int × α) :=
  (k, v) :: c.filter (fun e => !decide (e.1 = k))

structure FetchOut (α : Type) where
  data : α
  cache : List (String × Int × α)
  networkCall : Bool
deriving DecidableEq

/-- `fetch(endpoint, use_cache)` from src/main.py lines 82-96: if caching is
on and a cache entry younger than `CACHE_TTL` exists, return it with no
network call; otherwise perform the GET, store `(now, data)` and return the
fresh data. -/
def fetch {α : Type} (cache : List (String × Int × α)) (endpoint : String)
    (useCache : Bool) (now : Int) (upstream : α) : FetchOut α :=
  let key := "fpl:" ++ endpoint
  match (if useCache then cacheLookup cache key else none) with
  | some td =>
      if now - td.1 < CACHE_TTL then ⟨td.2, cache, false⟩
      else ⟨upstream, cacheStore cache key (now, upstream), true⟩
  | none => ⟨upstream, cacheStore cache key (now, upstream), true⟩

/-! ## Authenticated session manager (src/main.py lines 99-162)

`auth_fetch` works on the module globals `_auth_session` (an optional
session handle, embedded as `Option Nat` so that "the same handle" is
expressible) and `_last_auth_time`.  The environment of one call:
whether both credentials are configured, the wall clock `now`, the outcome
the login POST would have (an HTTP status or a raised transport exception),
a fresh handle id for `requests.Session()`, and the outcome the
authenticated GET would have. -/

def AUTH_TTL : Int := 7200

structure AuthState where
  session : Option Nat
  lastAuthTime : Option Int
deriving DecidableEq

inductive LoginOutcome where
  | status (code : Nat)
  | exn (msg : String)
deriving DecidableEq

/-- Result of one `auth_fetch` call: either the JSON payload or the
`{"error": ...}` dictionary. -/
inductive AuthResult (α : Type) where
  | ok (data : α)
  | err (msg : String)
deriving DecidableEq

/-- `auth_fetch` re-authenticates when no session is held or the held one
is older than two hours (src/main.py line 104). -/
def needsReauth (st : AuthState) (now : Int) : Bool :=
  st.session.isNone ||
    (match st.lastAuthTime with
     | some t => decide (now - t > AUTH_TTL)
     | none => false)

/-- `auth_fetch(endpoint)` from src/main.py lines 99-162.  Returns the
result together with the post-call global state.  During a (re-)login the
code first binds `_auth_session = requests.Session()` (the fresh handle),
then posts; a status outside 200-399 or a raised exception sets
`_auth_session = None` and returns the error.  A successful GET returns
its JSON; a raised GET exception returns the error dict and leaves the
globals untouched. -/
def auth_fetch {α : Type} (st : AuthState) (credsConfigured : Bool)
    (now : Int) (login : LoginOutcome) (freshHandle : Nat)
    (fetchOutcome : Except String α) : AuthResult α × AuthState :=
  if needsReauth st now then
    if !credsConfigured then
      (AuthResult.err "FPL_EMAIL and FPL_PASSWORD required", st)
    else
      match login with
      | LoginOutcome.status code =>
          if 200 ≤ code ∧ code < 400 then
            let st1 : AuthState := ⟨some freshHandle, some now⟩
            match fetchOutcome with
            | Except.ok d => (AuthResult.ok d, st1)
            | Except.error e => (AuthResult.err e, st1)
          else
            (AuthResult.err ("Auth failed: HTTP " ++ toString code),
             ⟨none, st.lastAuthTime⟩)
      | LoginOutcome.exn e =>
          (AuthResult.err e, ⟨none, st.lastAuthTime⟩)
  else
    match fetchOutcome with
    | Except.ok d => (AuthResult.ok d, st)
    | Except.error e => (AuthResult.err e, st)

/-- Reachable global states: a held session implies the credentials were
configured when it was created (they are read once at module load) and a
recorded authentication time. -/
def AuthInvariant (st : AuthState) (credsConfigured : Bool) : Prop :=
  ∀ h, st.session = some h → credsConfigured = true ∧ ∃ t, st.lastAuthTime = some t

/-- The failure happened in the re-authentication branch (configuration
check, login status check, or login transport exception) as opposed to in
the authenticated GET against an already-usable session. -/
def loginPhaseFailure (st : AuthState) (credsConfigured : Bool) (now : Int)
    (login : LoginOutcome) : Prop :=
  needsReauth st now = true ∧
    (credsConfigured = false ∨
     (∃ code, login = LoginOutcome.status code ∧ ¬(200 ≤ code ∧ code < 400)) ∨
     (∃ e, login = LoginOutcome.exn e))

/-! ## Python value helpers

Small, faithful models of the Python-level operations the module uses:
truthiness-based parameter normalisation, `in` substring tests, `float()`
parsing of digit strings, banker's rounding, and list slicing. -/

/-- Python `needle in hay` on lists (contiguous infix test). -/
def listInfix {α : Type} [DecidableEq α] : List α → List α → Bool
  | n, [] => decide (n = [])
  | n, x :: t => n.isPrefixOf (x :: t) || listInfix n t

/-- Python `needle in hay` on strings. -/
def pyIn (needle hay : String) : Bool :=
  listInfix needle.toList hay.toList

/-- Python `s.lower()`: per-character case map (the data domain is
ASCII). -/
def strLower (s : String) : String :=
  String.mk (s.data.map Char.toLower)

/-- Python `s.upper()`. -/
def strUpper (s : String) : String :=
  String.mk (s.data.map Char.toUpper)

/-- Numeric value of a list of decimal digit characters. -/
def digitsVal (l : List Char) : ℚ :=
  l.foldl (fun acc c => acc * 10 + ((c.toNat - 48 : ℕ) : ℚ)) 0

/-- Value of a digits-and-at-most-one-dot numeral such as 12, 12.5 or .5
(the shape Python `float()` accepts among digit/dot strings). -/
def digitsDotVal (l : List Char) : ℚ :=
  let ip := l.takeWhile (fun c => decide (c ≠ '.'))
  let fp := (l.dropWhile (fun c => decide (c ≠ '.'))).drop 1
  digitsVal ip + digitsVal fp / (10 ^ fp.length)

/-- Python `float(s)` on the strings this data domain produces (an optional
sign followed by digits with at most one decimal point); any other string
raises, modelled as `none`. -/
def pyFloat (s : String) : Option ℚ :=
  let l := s.toList
  let signAndRest : ℚ × List Char :=
    match l with
    | '-' :: r => (-1, r)
    | '+' :: r => (1, r)
    | r => (1, r)
  let rest := signAndRest.2
  let stripped := rest.filter (fun c => decide (c ≠ '.'))
  if stripped ≠ [] ∧ stripped.all Char.isDigit ∧ rest.count '.' ≤ 1 then
    some (signAndRest.1 * digitsDotVal rest)
  else none

/-- Round to an integer, halves to the even neighbour (Python `round`). -/
def roundHalfEven (q : ℚ) : ℤ :=
  let f := ⌊q⌋
  let r := q - f
  if r < 1/2 then f
  else if 1/2 < r then f + 1
  else if f % 2 = 0 then f else f + 1

/-- Python `round(q, n)`. -/
def pyRound (q : ℚ) (n : ℕ) : ℚ :=
  ((roundHalfEven (q * 10 ^ n) : ℚ)) / 10 ^ n

/-- Python `l[:limit]` for an `int` limit: a nonnegative limit keeps the
first `limit` elements, a negative one drops `-limit` elements from the
end. -/
def pySlice {α : Type} (limit : Int) (l : List α) : List α :=
  if 0 ≤ limit then l.take limit.toNat
  else l.take (l.length - (-limit).toNat)

/-- Python `min(l, key=f)` over a nonempty list folds left keeping the
incumbent on ties, so the first minimum wins. -/
def pyMinFold {α : Type} (f : α → ℚ) (x : α) (xs : List α) : α :=
  xs.foldl (fun acc y => if f y < f acc then y else acc) x

/-- Python `max(l, key=f)`: the first maximum wins. -/
def pyMaxFold {α : Type} (f : α → ℚ) (x : α) (xs : List α) : α :=
  xs.foldl (fun acc y => if f acc < f y then y else acc) x

/-- Append an element unless already present (insertion-ordered key set,
the iteration order of a Python `Counter`). -/
def addNew {α : Type} [DecidableEq α] (acc : List α) (x : α) : List α :=
  if x ∈ acc then acc else acc ++ [x]

/-- Keys of a Python `Counter(l)` in first-seen order. -/
def dedupFirst {α : Type} [DecidableEq α] (l : List α) : List α :=
  l.foldl addNew []

/-- `Counter(l)` as an insertion-ordered association list. -/
def counterList {α : Type} [DecidableEq α] (l : List α) : List (α × ℕ) :=
  (dedupFirst l).map (fun k => (k, l.count k))

/-! ## Upstream data model

Read-only projections of the upstream JSON records, with the fields this
module touches.  Monetary integer-tenths fields stay `Int`; string-typed
upstream fields (`form`, `selected_by_percent`, the expected-goal stats)
stay `String` exactly as the API serves them. -/

structure PlayerRec where
  id : Nat
  webName : String
  firstName : String
  secondName : String
  team : Nat
  elementType : Nat
  nowCost : Int
  totalPoints : Int
  form : String
  pointsPerGame : String
  goalsScored : Int
  assists : Int
  cleanSheets : Int
  bonus : Int
  minutes : Int
  selectedByPercent : String
  status : String
  expectedGoals : String
  expectedAssists : String
deriving DecidableEq

structure TeamRec where
  id : Nat
  name : String
  shortName : String
deriving DecidableEq

structure EventRec where
  id : Int
  isCurrent : Bool
deriving DecidableEq

structure Fixture where
  event : Option Int
  teamH : Nat
  teamA : Nat
  teamHDifficulty : Int
  teamADifficulty : Int
  finished : Bool
  kickoffTime : String
deriving DecidableEq

structure Bootstrap where
  elements : List PlayerRec
  teams : List TeamRec
  events : List EventRec
deriving DecidableEq

/-- `teams = {t["id"]: t for t in data["teams"]}` followed by a lookup;
a missing id is totalised to a blank record (the Python code would raise,
which no claim exercises). -/
def teamLookup (teams : List TeamRec) (tid : Nat) : TeamRec :=
  (teams.find? (fun t => decide (t.id = tid))).getD ⟨0, "", ""⟩

def teamName (teams : List TeamRec) (tid : Nat) : String :=
  (teamLookup teams tid).name

/-- `["GKP", "DEF", "MID", "FWD"][element_type - 1]`. -/
def posCode (elementType : Nat) : String :=
  (["GKP", "DEF", "MID", "FWD"]).getD (elementType - 1) ""

/-- `position_map.get(element_type, "UNK")` used by the team tools. -/
def posCodeD (elementType : Nat) : String :=
  if elementType = 1 then "GKP"
  else if elementType = 2 then "DEF"
  else if elementType = 3 then "MID"
  else if elementType = 4 then "FWD"
  else "UNK"

/-- `next((e["id"] for e in data["events"] if e["is_current"]), 1)`. -/
def currentGw (events : List EventRec) : Int :=
  ((events.find? (fun e => e.isCurrent)).map (fun e => e.id)).getD 1

/-! ## search_player and get_league_standings (src/main.py 288-331, 1231-1261)

`search_player` performs no exception handling of its own, so a failing
`fetch` propagates: it is embedded in the `Except` monad over the upstream
failure.  `get_league_standings` wraps its whole body in try/except and is
total, always returning a structured value. -/

inductive UpError where
  | http (code : Nat)
  | transport (msg : String)
deriving DecidableEq

def upErrMsg : UpError → String
  | UpError.http code => "HTTP " ++ toString code
  | UpError.transport m => m

structure SearchEntry where
  id : Nat
  name : String
  webName : String
  team : String
  position : String
  price : ℚ
  totalPoints : Int
  form : String
  pointsPerGame : String
  goals : Int
  assists : Int
  bonus : Int
  selectedBy : String
  expectedGoals : String
  expectedAssists : String
deriving DecidableEq

inductive SearchOut where
  | notFound (msg : String)
  | found (count : Nat) (players : List SearchEntry)
deriving DecidableEq

def playerMatches (name : String) (p : PlayerRec) : Bool :=
  pyIn (strLower name) (strLower p.webName) ||
    pyIn (strLower name) (strLower (p.firstName ++ " " ++ p.secondName))

def shapeSearchEntry (teams : List TeamRec) (p : PlayerRec) : SearchEntry :=
  { id := p.id
    name := p.firstName ++ " " ++ p.secondName
    webName := p.webName
    team := teamName teams p.team
    position := posCode p.elementType
    price := (p.nowCost : ℚ) / 10
    totalPoints := p.totalPoints
    form := p.form
    pointsPerGame := p.pointsPerGame
    goals := p.goalsScored
    assists := p.assists
    bonus := p.bonus
    selectedBy := p.selectedByPercent ++ "%"
    expectedGoals := p.expectedGoals
    expectedAssists := p.expectedAssists }

def search_player (bootFetch : Except UpError Bootstrap) (name : String) :
    Except UpError SearchOut := do
  let data ← bootFetch
  let hits := data.elements.filter (playerMatches name)
  if hits = [] then
    return SearchOut.notFound ("No players found for " ++ name)
  else
    return SearchOut.found hits.length
      ((hits.take 10).map (shapeSearchEntry data.teams))

structure StandingRow where
  rank : Int
  entryName : String
  playerName : String
  total : Int
deriving DecidableEq

structure LeagueData where
  leagueName : String
  rows : List StandingRow
deriving DecidableEq

structure ShapedStanding where
  rank : Int
  teamName : String
  manager : String
  totalPoints : Int
deriving DecidableEq

inductive LeagueOut where
  | ok (leagueName : String) (totalTeams : Nat) (standings : List ShapedStanding)
  | err (msg : String)
deriving DecidableEq

def get_league_standings (leagueFetch : Except UpError LeagueData) : LeagueOut :=
  match leagueFetch with
  | Except.ok lg =>
      LeagueOut.ok lg.leagueName lg.rows.length
        ((lg.rows.take 25).map (fun s => ⟨s.rank, s.entryName, s.playerName, s.total⟩))
  | Except.error e =>
      LeagueOut.err ("Failed to fetch league: " ++ upErrMsg e)

/-! ## compare_players metric comparison (src/main.py 401-421)

A player element is a JSON dict; `metricLookup` projects the ten default
metrics (the keys the claims quantify over).  `now_cost` passes through
`float(...)`, which on the upstream integer yields the same rational. -/

inductive PVal where
  | num (q : ℚ)
  | str (s : String)
deriving DecidableEq

def PVal.isNum : PVal → Bool
  | PVal.num _ => true
  | PVal.str _ => false

def PVal.numOf : PVal → ℚ
  | PVal.num q => q
  | PVal.str _ => 0

def metricLookup (p : PlayerRec) (m : String) : Option PVal :=
  if m = "total_points" then some (PVal.num p.totalPoints)
  else if m = "form" then some (PVal.str p.form)
  else if m = "goals_scored" then some (PVal.num p.goalsScored)
  else if m = "assists" then some (PVal.num p.assists)
  else if m = "bonus" then some (PVal.num p.bonus)
  else if m = "points_per_game" then some (PVal.str p.pointsPerGame)
  else if m = "expected_goals" then some (PVal.str p.expectedGoals)
  else if m = "expected_assists" then some (PVal.str p.expectedAssists)
  else if m = "minutes" then some (PVal.num p.minutes)
  else if m = "now_cost" then some (PVal.num p.nowCost)
  else none

/-- The `metric_values` dict built for one metric over the resolved players
(in the requested order), keeping only players whose element carries the
metric. -/
def metricValues (found : List (String × PlayerRec)) (m : String) :
    List (String × PVal) :=
  found.filterMap (fun np => (metricLookup np.2 m).map (fun v => (np.1, v)))

/-- `best_performers[metric]` from src/main.py 415-421: recorded only when
every collected value is numeric; `min` by value for `now_cost`, `max` by
value otherwise, each naming the first extremal player. -/
def bestPerformer (found : List (String × PlayerRec)) (m : String) :
    Option String :=
  match metricValues found m with
  | [] => none
  | x :: xs =>
      if (x :: xs).all (fun nv => nv.2.isNum) then
        some (if m = "now_cost" then (pyMinFold (fun nv => nv.2.numOf) x xs).1
              else (pyMaxFold (fun nv => nv.2.numOf) x xs).1)
      else none

/-! ## analyze_players (src/main.py 480-613)

The Phase-1 unwrap lines `x = unwrap_param(x, ...) if x else None` send a
falsy argument (0, 0.0, "") to `None`; `normalizeArgs` is that step.  The
filter loop, the sort with its numeric-looking-string key, and the summary
statistics are embedded one for one. -/

structure AnalyzeArgs where
  position : Option String := none
  team : Option String := none
  minPrice : Option ℚ := none
  maxPrice : Option ℚ := none
  minPoints : Option Int := none
  minOwnership : Option ℚ := none
  maxOwnership : Option ℚ := none
  formThreshold : Option ℚ := none
  sortBy : String := "total_points"
  limit : Int := 20
deriving DecidableEq

def normQ (o : Option ℚ) : Option ℚ :=
  o.bind (fun q => if q = 0 then none else some q)

def normI (o : Option Int) : Option Int :=
  o.bind (fun n => if n = 0 then none else some n)

def normS (o : Option String) : Option String :=
  o.bind (fun s => if s = "" then none else some s)

def normalizeArgs (a : AnalyzeArgs) : AnalyzeArgs :=
  { a with
    position := normS a.position
    team := normS a.team
    minPrice := normQ a.minPrice
    maxPrice := normQ a.maxPrice
    minPoints := normI a.minPoints
    minOwnership := normQ a.minOwnership
    maxOwnership := normQ a.maxOwnership
    formThreshold := normQ a.formThreshold }

/-- `pos_map.get(position.upper(), position.upper())`. -/
def normalizePosition (pos : String) : String :=
  let u := strUpper pos
  if u = "GOALKEEPER" then "GKP"
  else if u = "DEFENDER" then "DEF"
  else if u = "MIDFIELDER" then "MID"
  else if u = "FORWARD" then "FWD"
  else u

/-- The filter body of src/main.py lines 530-567 (arguments already
normalised, `np` the normalised position). -/
def passesFilters (np : Option String) (a : AnalyzeArgs) (teams : List TeamRec)
    (p : PlayerRec) : Bool :=
  (match np with
   | some pos => decide (posCode p.elementType = pos)
   | none => true) &&
  (match a.team with
   | some t => pyIn (strLower t) (strLower (teamName teams p.team))
   | none => true) &&
  (match a.minPrice with
   | some m => !decide ((p.nowCost : ℚ) / 10 < m)
   | none => true) &&
  (match a.maxPrice with
   | some m => !decide (m < (p.nowCost : ℚ) / 10)
   | none => true) &&
  (match a.minPoints with
   | some m => !decide (p.totalPoints < m)
   | none => true) &&
  (match a.formThreshold with
   | some ft =>
       match pyFloat p.form with
       | some v => !decide (v < ft)
       | none => false
   | none => true) &&
  (match a.minOwnership, a.maxOwnership with
   | none, none => true
   | mo, mx =>
       match pyFloat p.selectedByPercent with
       | some ow =>
           (match mo with
            | some m => !decide (ow < m)
            | none => true) &&
           (match mx with
            | some m => !decide (m < ow)
            | none => true)
       | none => false)

structure ShapedPlayer where
  id : Nat
  name : String
  team : String
  position : String
  price : ℚ
  points : Int
  form : String
  ownership : String
  goals : Int
  assists : Int
  expectedGoals : String
  expectedAssists : String
deriving DecidableEq

def shapePlayer (teams : List TeamRec) (p : PlayerRec) : ShapedPlayer :=
  { id := p.id
    name := p.webName
    team := teamName teams p.team
    position := posCode p.elementType
    price := (p.nowCost : ℚ) / 10
    points := p.totalPoints
    form := p.form
    ownership := p.selectedByPercent ++ "%"
    goals := p.goalsScored
    assists := p.assists
    expectedGoals := p.expectedGoals
    expectedAssists := p.expectedAssists }

/-- `x.get(sort_by, 0)`: the shaped dict keys, any other key giving the
integer default 0. -/
def shapedGet (sp : ShapedPlayer) (k : String) : PVal :=
  if k = "id" then PVal.num sp.id
  else if k = "name" then PVal.str sp.name
  else if k = "team" then PVal.str sp.team
  else if k = "position" then PVal.str sp.position
  else if k = "price" then PVal.num sp.price
  else if k = "points" then PVal.num sp.points
  else if k = "form" then PVal.str sp.form
  else if k = "ownership" then PVal.str sp.ownership
  else if k = "goals" then PVal.num sp.goals
  else if k = "assists" then PVal.num sp.assists
  else if k = "expected_goals" then PVal.str sp.expectedGoals
  else if k = "expected_assists" then PVal.str sp.expectedAssists
  else PVal.num 0

/-- The sort key of src/main.py line 586:
`float(v) if isinstance(v, (int, float, str)) and str(v).replace(".", "").isdigit() else 0`.
A numeric value prints without a minus sign exactly when nonnegative, so a
negative number fails `isdigit` and keys as 0; a digits-and-dots string
keys as its float value, except that two or more dots make `float`
raise (`none`); every other string keys as 0. -/
def sortKeyOfVal (v : PVal) : Option ℚ :=
  match v with
  | PVal.num q => some (if 0 ≤ q then q else 0)
  | PVal.str s =>
      let stripped := s.toList.filter (fun c => decide (c ≠ '.'))
      if stripped ≠ [] ∧ stripped.all Char.isDigit then
        if s.toList.count '.' ≤ 1 then some (digitsDotVal s.toList) else none
      else some 0

def shapedSortKey (sortBy : String) (sp : ShapedPlayer) : Option ℚ :=
  sortKeyOfVal (shapedGet sp sortBy)

def keyD (sortBy : String) (sp : ShapedPlayer) : ℚ :=
  (shapedSortKey sortBy sp).getD 0

/-- `filtered.sort(key=..., reverse=True)` inside try/except: CPython
computes every key before reordering, so a raising key leaves the list
unchanged and the except branch sorts by `points` descending instead.
A stable descending sort is a stable insertion sort under the flipped
comparison (Python sort is stable; for a total preorder every stable sort
computes the same list). -/
def sortShaped (sortBy : String) (l : List ShapedPlayer) : List ShapedPlayer :=
  if l.all (fun sp => (shapedSortKey sortBy sp).isSome) then
    List.insertionSort (fun x y => keyD sortBy y ≤ keyD sortBy x) l
  else
    List.insertionSort (fun x y => y.points ≤ x.points) l

structure FiltersApplied where
  position : Option String
  team : Option String
  minPrice : Option ℚ
  maxPrice : Option ℚ
  minPoints : Option Int
  minOwnership : Option ℚ
  maxOwnership : Option ℚ
  formThreshold : Option ℚ
deriving DecidableEq

structure AnalyzeSummary where
  totalMatches : Nat
  averagePoints : ℚ
  averagePrice : ℚ
  positionDistribution : List (String × ℕ)
  topTeams : List (String × ℕ)
deriving DecidableEq

structure AnalyzeOut where
  summary : AnalyzeSummary
  filtersApplied : FiltersApplied
  players : List ShapedPlayer
deriving DecidableEq

/-- src/main.py lines 519-613 after the unwrap step. -/
def analyzePlayersCore (a : AnalyzeArgs) (boot : Bootstrap) : AnalyzeOut :=
  let np := a.position.map normalizePosition
  let filtered := boot.elements.filterMap (fun p =>
    if passesFilters np a boot.teams p then some (shapePlayer boot.teams p)
    else none)
  let sorted := sortShaped a.sortBy filtered
  let total := sorted.length
  let avgPoints := (sorted.map (fun x => (x.points : ℚ))).sum / ((max 1 total : ℕ) : ℚ)
  let avgPrice := (sorted.map (fun x => x.price)).sum / ((max 1 total : ℕ) : ℚ)
  { summary :=
      { totalMatches := total
        averagePoints := pyRound avgPoints 1
        averagePrice := pyRound avgPrice 2
        positionDistribution := counterList (sorted.map (fun x => x.position))
        topTeams :=
          (List.insertionSort (fun x y => y.2 ≤ x.2)
            (counterList (sorted.map (fun x => x.team)))).take 10 }
    filtersApplied :=
      ⟨np, a.team, a.minPrice, a.maxPrice, a.minPoints,
       a.minOwnership, a.maxOwnership, a.formThreshold⟩
    players := pySlice a.limit sorted }

def analyze_players (a : AnalyzeArgs) (boot : Bootstrap) : AnalyzeOut :=
  analyzePlayersCore (normalizeArgs a) boot

/-- The whole tool body runs with no try/except around `fetch`, so an
upstream failure propagates to the caller. -/
def analyze_players_op (bootFetch : Except UpError Bootstrap)
    (a : AnalyzeArgs) : Except UpError AnalyzeOut := do
  let boot ← bootFetch
  return analyze_players a boot

/-- Spec-side restatement ("every returned player satisfies all supplied
filters conjunctively"), written from the specification's words over the
source player record, for comparison with the code's filter. -/
def specSatisfies (teams : List TeamRec) (fa : FiltersApplied)
    (p : PlayerRec) : Prop :=
  (∀ pos, fa.position = some pos → posCode p.elementType = pos) ∧
  (∀ t, fa.team = some t →
    pyIn (strLower t) (strLower (teamName teams p.team)) = true) ∧
  (∀ m, fa.minPrice = some m → m ≤ (p.nowCost : ℚ) / 10) ∧
  (∀ m, fa.maxPrice = some m → (p.nowCost : ℚ) / 10 ≤ m) ∧
  (∀ m, fa.minPoints = some m → m ≤ p.totalPoints) ∧
  (∀ m, fa.minOwnership = some m →
    ∃ ow, pyFloat p.selectedByPercent = some ow ∧ m ≤ ow) ∧
  (∀ m, fa.maxOwnership = some m →
    ∃ ow, pyFloat p.selectedByPercent = some ow ∧ ow ≤ m) ∧
  (∀ ft, fa.formThreshold = some ft →
    ∃ v, pyFloat p.form = some v ∧ ft ≤ v)

/-- The filtered set before sorting and truncation, stated spec-side as a
plain filter (the code builds it with an accumulating loop). -/
def specFiltered (a : AnalyzeArgs) (boot : Bootstrap) : List PlayerRec :=
  let na := normalizeArgs a
  boot.elements.filter (passesFilters (na.position.map normalizePosition) na boot.teams)

/-- The shaped filtered set in source order (pre-sort, pre-truncation). -/
def specShaped (a : AnalyzeArgs) (boot : Bootstrap) : List ShapedPlayer :=
  (specFiltered a boot).map (shapePlayer boot.teams)

/-! ## Fixture analysis (src/main.py 645-952)

`analyze_player_fixtures` keeps a team's not-yet-finished fixtures (no
gameweek window); the `team` branch of `analyze_fixtures` keeps fixtures
by truthy gameweek in `[current, current + n]`; the `player` branch keeps
not-yet-finished fixtures with gameweek in `(current, current + n]`; the
`position` branch uses the `player` window without the finished test. -/

def fiveBandRating (avg : ℚ) : String :=
  if avg ≤ 2 then "Excellent"
  else if avg ≤ 3 then "Good"
  else if avg ≤ 4 then "Average"
  else "Difficult"

def fixtureInvolves (teamId : Nat) (f : Fixture) : Bool :=
  decide (f.teamH = teamId) || decide (f.teamA = teamId)

/-- Truthiness of `f.get("event")`: present and nonzero. -/
def eventTruthy (f : Fixture) : Bool :=
  match f.event with
  | some e => !decide (e = 0)
  | none => false

/-- Selection of src/main.py lines 668-671 (also lines 430-433): team
involved, not finished, first `num_fixtures` of them. -/
def playerUpcomingFixtures (fixtures : List Fixture) (teamId : Nat)
    (numFixtures : Int) : List Fixture :=
  pySlice numFixtures
    (fixtures.filter (fun f => fixtureInvolves teamId f && !f.finished))

/-- Selection of src/main.py lines 818-822 (`team` entity). -/
def teamWindowFixtures (fixtures : List Fixture) (teamId : Nat)
    (cur num : Int) : List Fixture :=
  fixtures.filter (fun f =>
    fixtureInvolves teamId f && eventTruthy f &&
      (match f.event with
       | some e => decide (cur ≤ e) && decide (e ≤ cur + num)
       | none => false))

/-- Selection of src/main.py lines 854-859 (`player` entity). -/
def playerWindowFixtures (fixtures : List Fixture) (teamId : Nat)
    (cur num : Int) : List Fixture :=
  fixtures.filter (fun f =>
    fixtureInvolves teamId f && eventTruthy f &&
      (match f.event with
       | some e => decide (cur < e) && decide (e ≤ cur + num)
       | none => false) &&
      !f.finished)

/-- Selection of src/main.py lines 902-906 (`position` entity, per team). -/
def positionWindowFixtures (fixtures : List Fixture) (teamId : Nat)
    (cur num : Int) : List Fixture :=
  fixtures.filter (fun f =>
    fixtureInvolves teamId f && eventTruthy f &&
      (match f.event with
       | some e => decide (cur < e) && decide (e ≤ cur + num)
       | none => false))

structure FixtureEntry where
  gameweek : Option Int
  opponent : String
  location : String
  difficulty : Int
deriving DecidableEq

def shapeFixtureEntry (teams : List TeamRec) (teamId : Nat) (f : Fixture) :
    FixtureEntry :=
  let isHome := decide (f.teamH = teamId)
  { gameweek := f.event
    opponent := teamName teams (if isHome then f.teamA else f.teamH)
    location := if isHome then "Home" else "Away"
    difficulty := if isHome then f.teamHDifficulty else f.teamADifficulty }

def avgDifficulty (entries : List FixtureEntry) : ℚ :=
  if entries = [] then 3
  else ((entries.map (fun r => (r.difficulty : ℚ))).sum) / entries.length

structure TeamFixtureAnalysis where
  entityName : String
  fixtures : List FixtureEntry
  averageDifficulty : ℚ
  fixtureScore : ℚ
  rating : String
deriving DecidableEq

inductive AFOut where
  | ok (d : TeamFixtureAnalysis)
  | err (msg : String)
deriving DecidableEq

def afFixtures : AFOut → List FixtureEntry
  | AFOut.ok d => d.fixtures
  | AFOut.err _ => []

/-- The `team` branch of `analyze_fixtures` (src/main.py 812-845). -/
def analyze_fixtures_team (entityName : String) (boot : Bootstrap)
    (fixtures : List Fixture) (numGameweeks : Int) : AFOut :=
  match boot.teams.find? (fun t => pyIn (strLower entityName) (strLower t.name)) with
  | none => AFOut.err ("Team not found: " ++ entityName)
  | some team =>
      let cur := currentGw boot.events
      let sel := teamWindowFixtures fixtures team.id cur numGameweeks
      let entries := sel.map (shapeFixtureEntry boot.teams team.id)
      let avg := avgDifficulty entries
      AFOut.ok
        { entityName := team.name
          fixtures := entries
          averageDifficulty := pyRound avg 2
          fixtureScore := pyRound ((6 - avg) * 2) 1
          rating := fiveBandRating avg }

/-- The `player` branch of `analyze_fixtures` (src/main.py 847-888). -/
def analyze_fixtures_player (entityName : String) (boot : Bootstrap)
    (fixtures : List Fixture) (numGameweeks : Int) : AFOut :=
  match boot.elements.find? (fun p => pyIn (strLower entityName) (strLower p.webName)) with
  | none => AFOut.err ("Player not found: " ++ entityName)
  | some player =>
      let cur := currentGw boot.events
      let sel := playerWindowFixtures fixtures player.team cur numGameweeks
      let entries := sel.map (shapeFixtureEntry boot.teams player.team)
      let avg := avgDifficulty entries
      AFOut.ok
        { entityName := player.webName
          fixtures := entries
          averageDifficulty := pyRound avg 2
          fixtureScore := pyRound ((6 - avg) * 2) 1
          rating := fiveBandRating avg }

structure PlayerFixturesOut where
  playerName : String
  playerTeam : String
  fixtures : List FixtureEntry
  averageDifficulty : ℚ
  rating : String
deriving DecidableEq

inductive PFOut where
  | ok (d : PlayerFixturesOut)
  | err (msg : String)
deriving DecidableEq

def pfFixtures : PFOut → List FixtureEntry
  | PFOut.ok d => d.fixtures
  | PFOut.err _ => []

/-- `analyze_player_fixtures` (src/main.py 645-701); the per-fixture
`kickoff` field is dropped from the shaped entry, which no claim
examines. -/
def analyze_player_fixtures (playerName : String) (numFixtures : Int)
    (boot : Bootstrap) (fixtures : List Fixture) : PFOut :=
  match boot.elements.find? (fun p => pyIn (strLower playerName) (strLower p.webName)) with
  | none => PFOut.err ("Player not found: " ++ playerName)
  | some player =>
      let sel := playerUpcomingFixtures fixtures player.team numFixtures
      let entries := sel.map (shapeFixtureEntry boot.teams player.team)
      let avg := avgDifficulty entries
      PFOut.ok
        { playerName := player.webName
          playerTeam := teamName boot.teams player.team
          fixtures := entries
          averageDifficulty := pyRound avg 2
          rating := fiveBandRating avg }

/-! ## Blank and double gameweeks (src/main.py 704-771) -/

/-- `min(current_gw + num_gameweeks, 39)`, the exclusive upper end of the
examined gameweek range. -/
def gwTop (cur num : Int) : Int :=
  min (cur + num) 39

/-- `range(current_gw, min(current_gw + num_gameweeks, 39))`. -/
def gwRangeList (cur num : Int) : List Int :=
  (List.range (gwTop cur num - cur).toNat).map (fun i : ℕ => cur + (i : ℤ))

/-- Number of fixture-appearances of a team in one gameweek (each fixture
contributes its home and its away slot). -/
def appearances (fixtures : List Fixture) (tid : Nat) (gw : Int) : ℕ :=
  ((fixtures.filter (fun f => decide (f.event = some gw))).map (fun f =>
    (if f.teamH = tid then 1 else 0) + (if f.teamA = tid then 1 else 0))).sum

/-- Membership in the `teams_playing` set built for one gameweek. -/
def playsIn (fixtures : List Fixture) (tid : Nat) (gw : Int) : Bool :=
  fixtures.any (fun f =>
    decide (f.event = some gw) && (decide (f.teamH = tid) || decide (f.teamA = tid)))

def blankTeams (teams : List TeamRec) (fixtures : List Fixture) (gw : Int) :
    List String :=
  (teams.filter (fun t => !playsIn fixtures t.id gw)).map (fun t => t.name)

/-- Keys of `Counter()` filled from the gameweek's fixtures, in first-seen
(home before away) order. -/
def counterKeys (fixtures : List Fixture) (gw : Int) : List Nat :=
  fixtures.foldl (fun acc f =>
    if f.event = some gw then addNew (addNew acc f.teamH) f.teamA
    else acc) []

def doubleTeams (teams : List TeamRec) (fixtures : List Fixture) (gw : Int) :
    List String :=
  ((counterKeys fixtures gw).filter (fun tid => 2 ≤ appearances fixtures tid gw)).map
    (teamName teams)

structure GwEntry where
  gameweek : Int
  teams : List String
  count : ℕ
deriving DecidableEq

def get_blank_gameweeks (numGameweeks : Int) (boot : Bootstrap)
    (fixtures : List Fixture) : List GwEntry :=
  (gwRangeList (currentGw boot.events) numGameweeks).filterMap (fun gw =>
    if blankTeams boot.teams fixtures gw = [] then none
    else some ⟨gw, blankTeams boot.teams fixtures gw,
               (blankTeams boot.teams fixtures gw).length⟩)

def get_double_gameweeks (numGameweeks : Int) (boot : Bootstrap)
    (fixtures : List Fixture) : List GwEntry :=
  (gwRangeList (currentGw boot.events) numGameweeks).filterMap (fun gw =>
    if doubleTeams boot.teams fixtures gw = [] then none
    else some ⟨gw, doubleTeams boot.teams fixtures gw,
               (doubleTeams boot.teams fixtures gw).length⟩)

/-! ## get_my_team (src/main.py 955-1064)

The configuration (team id, credential presence), the current-gameweek
resolution input, and the authenticated picks fetch outcome are explicit
parameters.  In the returned dict, `bank` and `team_value` are divided by
10.0 while `transfers_cost` is passed through as fetched (line 1060). -/

structure PickRec where
  element : Nat
  position : Nat
  multiplier : Int
  isCaptain : Bool
  isViceCaptain : Bool
deriving DecidableEq

structure EntryHistory where
  points : Int
  totalPoints : Int
  overallRank : Int
  bank : Int
  value : Int
  eventTransfers : Int
  eventTransfersCost : Int
deriving DecidableEq

structure PicksData where
  picks : List PickRec
  entryHistory : EntryHistory
deriving DecidableEq

structure FormattedPick where
  id : Nat
  positionOrder : Nat
  multiplier : Int
  isCaptain : Bool
  isViceCaptain : Bool
  webName : String
  fullName : String
  price : ℚ
  form : String
  totalPoints : Int
  minutes : Int
  goals : Int
  assists : Int
  cleanSheets : Int
  bonus : Int
  team : String
  teamShort : String
  position : String
deriving DecidableEq

def formatPick (teams : List TeamRec) (pick : PickRec) (p : PlayerRec) :
    FormattedPick :=
  { id := pick.element
    positionOrder := pick.position
    multiplier := pick.multiplier
    isCaptain := pick.isCaptain
    isViceCaptain := pick.isViceCaptain
    webName := p.webName
    fullName := p.firstName ++ " " ++ p.secondName
    price := (p.nowCost : ℚ) / 10
    form := p.form
    totalPoints := p.totalPoints
    minutes := p.minutes
    goals := p.goalsScored
    assists := p.assists
    cleanSheets := p.cleanSheets
    bonus := p.bonus
    team := teamName teams p.team
    teamShort := (teamLookup teams p.team).shortName
    position := posCodeD p.elementType }

structure MyTeamOut where
  gameweek : Int
  teamId : Int
  active : List FormattedPick
  bench : List FormattedPick
  captain : Option FormattedPick
  viceCaptain : Option FormattedPick
  points : Int
  totalPoints : Int
  rank : Int
  bank : ℚ
  teamValue : ℚ
  transfersMade : Int
  transfersCost : ℚ
deriving DecidableEq

inductive MyTeamResult where
  | ok (t : MyTeamOut)
  | err (msg : String)
deriving DecidableEq

def myTeamBank : MyTeamResult → ℚ
  | MyTeamResult.ok t => t.bank
  | MyTeamResult.err _ => 0

def myTeamValue : MyTeamResult → ℚ
  | MyTeamResult.ok t => t.teamValue
  | MyTeamResult.err _ => 0

def myTeamTransfersCost : MyTeamResult → ℚ
  | MyTeamResult.ok t => t.transfersCost
  | MyTeamResult.err _ => 0

def get_my_team (teamIdCfg : Option Int) (credsConfigured : Bool)
    (gameweekArg : Option Int) (events : List EventRec)
    (picksFetch : AuthResult PicksData) (players : List PlayerRec)
    (teams : List TeamRec) : MyTeamResult :=
  match teamIdCfg with
  | none => MyTeamResult.err "FPL_TEAM_ID not configured in environment variables"
  | some tid =>
      if !credsConfigured then
        MyTeamResult.err "FPL_EMAIL and FPL_PASSWORD required for authentication"
      else
        let gw := match gameweekArg with
          | some g => g
          | none => currentGw events
        match picksFetch with
        | AuthResult.err e => MyTeamResult.err e
        | AuthResult.ok pd =>
            let formatted := pd.picks.filterMap (fun pick =>
              (players.find? (fun p => decide (p.id = pick.element))).map
                (formatPick teams pick))
            let sortedPicks := List.insertionSort
              (fun x y => x.positionOrder ≤ y.positionOrder) formatted
            MyTeamResult.ok
              { gameweek := gw
                teamId := tid
                active := sortedPicks.filter (fun p => decide (0 < p.multiplier))
                bench := sortedPicks.filter (fun p => decide (p.multiplier = 0))
                captain := sortedPicks.find? (fun p => p.isCaptain)
                viceCaptain := sortedPicks.find? (fun p => p.isViceCaptain)
                points := pd.entryHistory.points
                totalPoints := pd.entryHistory.totalPoints
                rank := pd.entryHistory.overallRank
                bank := (pd.entryHistory.bank : ℚ) / 10
                teamValue := (pd.entryHistory.value : ℚ) / 10
                transfersMade := pd.entryHistory.eventTransfers
                transfersCost := (pd.entryHistory.eventTransfersCost : ℚ) }

/-! ## Concrete fixture data for counterexamples and witnesses -/

def mkPlayer (pid : Nat) (wname : String) (teamId : Nat) (etype : Nat)
    (cost pts : Int) (formStr ownStr : String) : PlayerRec :=
  { id := pid
    webName := wname
    firstName := "F"
    secondName := wname
    team := teamId
    elementType := etype
    nowCost := cost
    totalPoints := pts
    form := formStr
    pointsPerGame := "1.0"
    goalsScored := 0
    assists := 0
    cleanSheets := 0
    bonus := 0
    minutes := 90
    selectedByPercent := ownStr
    status := "a"
    expectedGoals := "0.5"
    expectedAssists := "0.3" }

def exTeams : List TeamRec :=
  [⟨1, "Arsenal", "ARS"⟩, ⟨2, "Chelsea", "CHE"⟩, ⟨3, "Burnley", "BUR"⟩]

def exP1 : PlayerRec := mkPlayer 1 "aaa" 1 4 80 1 "2.5" "10.0"

def exP2 : PlayerRec := mkPlayer 2 "bbb" 1 4 85 5 "3.5" "20.0"

def exEvents : List EventRec := [⟨10, true⟩]

def exBoot : Bootstrap := ⟨[exP1, exP2], exTeams, exEvents⟩

/-- Players sharing the extremal total_points value. -/
def exTieA : PlayerRec := mkPlayer 3 "A" 1 3 100 100 "5.0" "30.0"

def exTieB : PlayerRec := mkPlayer 4 "B" 2 3 110 100 "5.0" "30.0"

def exFound : List (String × PlayerRec) := [("A", exTieA), ("B", exTieB)]

/-- A finished fixture inside the current gameweek window. -/
def exFinishedFixture : Fixture :=
  ⟨some 10, 1, 2, 4, 3, true, "2025-01-01T15:00:00Z"⟩

/-- Gameweek-10 fixtures used by the blank/double witness: Chelsea and
Burnley meet twice, Arsenal does not play. -/
def exGwFixtures : List Fixture :=
  [⟨some 10, 2, 3, 2, 2, false, "k1"⟩, ⟨some 10, 3, 2, 2, 2, false, "k2"⟩]

def exHistory : EntryHistory :=
  { points := 60
    totalPoints := 700
    overallRank := 12345
    bank := 25
    value := 1003
    eventTransfers := 1
    eventTransfersCost := 4 }

def exPicksData : PicksData :=
  { picks := [⟨1, 1, 2, true, false⟩, ⟨2, 2, 0, false, true⟩]
    entryHistory := exHistory }

/-! ## Helper lemmas -/

theorem cacheLookup_store {α : Type} (c : List (String × Int × α)) (k : String)
    (v : Int × α) : cacheLookup (cacheStore c k v) k = some v := by
  simp [cacheLookup, cacheStore, List.find?]

theorem pyMinFold_mem {α : Type} (f : α → ℚ) (x : α) (xs : List α) :
    pyMinFold f x xs ∈ x :: xs := by
  induction xs generalizing x with
  | nil => exact List.mem_singleton.mpr rfl
  | cons y ys ih =>
      have hstep : pyMinFold f x (y :: ys) =
          pyMinFold f (if f y < f x then y else x) ys := rfl
      rw [hstep]
      rcases List.mem_cons.mp (ih (if f y < f x then y else x)) with h1 | h1
      · rw [h1]
        by_cases hc : f y < f x
        · rw [if_pos hc]
          exact List.mem_cons_of_mem _ (List.mem_cons_self _ _)
        · rw [if_neg hc]
          exact List.mem_cons_self _ _
      · exact List.mem_cons_of_mem _ (List.mem_cons_of_mem _ h1)

theorem pyMinFold_le {α : Type} (f : α → ℚ) (x : α) (xs : List α) :
    ∀ y ∈ x :: xs, f (pyMinFold f x xs) ≤ f y := by
  induction xs generalizing x with
  | nil =>
      intro y hy
      rw [List.mem_singleton] at hy
      rw [hy]
      exact le_refl (f x)
  | cons z zs ih =>
      intro y hy
      have hstep : pyMinFold f x (z :: zs) =
          pyMinFold f (if f z < f x then z else x) zs := rfl
      have hhead : f (pyMinFold f (if f z < f x then z else x) zs) ≤
          f (if f z < f x then z else x) :=
        ih (if f z < f x then z else x) _ (List.mem_cons_self _ _)
      rcases List.mem_cons.mp hy with h1 | h1
      · rw [hstep, h1]
        refine le_trans hhead ?_
        by_cases hc : f z < f x
        · rw [if_pos hc]; exact le_of_lt hc
        · rw [if_neg hc]
      · rcases List.mem_cons.mp h1 with h2 | h2
        · rw [hstep, h2]
          refine le_trans hhead ?_
          by_cases hc : f z < f x
          · rw [if_pos hc]
          · rw [if_neg hc]; exact le_of_not_lt hc
        · rw [hstep]
          exact ih (if f z < f x then z else x) y (List.mem_cons_of_mem _ h2)

theorem pyMaxFold_mem {α : Type} (f : α → ℚ) (x : α) (xs : List α) :
    pyMaxFold f x xs ∈ x :: xs := by
  induction xs generalizing x with
  | nil => exact List.mem_singleton.mpr rfl
  | cons y ys ih =>
      have hstep : pyMaxFold f x (y :: ys) =
          pyMaxFold f (if f x < f y then y else x) ys := rfl
      rw [hstep]
      rcases List.mem_cons.mp (ih (if f x < f y then y else x)) with h1 | h1
      · rw [h1]
        by_cases hc : f x < f y
        · rw [if_pos hc]
          exact List.mem_cons_of_mem _ (List.mem_cons_self _ _)
        · rw [if_neg hc]
          exact List.mem_cons_self _ _
      · exact List.mem_cons_of_mem _ (List.mem_cons_of_mem _ h1)

theorem pyMaxFold_ge {α : Type} (f : α → ℚ) (x : α) (xs : List α) :
    ∀ y ∈ x :: xs, f y ≤ f (pyMaxFold f x xs) := by
  induction xs generalizing x with
  | nil =>
      intro y hy
      rw [List.mem_singleton] at hy
      rw [hy]
      exact le_refl (f x)
  | cons z zs ih =>
      intro y hy
      have hstep : pyMaxFold f x (z :: zs) =
          pyMaxFold f (if f x < f z then z else x) zs := rfl
      have hhead : f (if f x < f z then z else x) ≤
          f (pyMaxFold f (if f x < f z then z else x) zs) :=
        ih (if f x < f z then z else x) _ (List.mem_cons_self _ _)
      rcases List.mem_cons.mp hy with h1 | h1
      · rw [hstep, h1]
        refine le_trans ?_ hhead
        by_cases hc : f x < f z
        · rw [if_pos hc]; exact le_of_lt hc
        · rw [if_neg hc]
      · rcases List.mem_cons.mp h1 with h2 | h2
        · rw [hstep, h2]
          refine le_trans ?_ hhead
          by_cases hc : f x < f z
          · rw [if_pos hc]
          · rw [if_neg hc]; exact le_of_not_lt hc
        · rw [hstep]
          exact ih (if f x < f z then z else x) y (List.mem_cons_of_mem _ h2)

theorem filterMap_ite_eq_filter_map {α β : Type} (c : α → Bool) (g : α → β)
    (l : List α) :
    l.filterMap (fun p => if c p then some (g p) else none) = (l.filter c).map g := by
  induction l with
  | nil => rfl
  | cons x xs ih =>
      by_cases hc : c x <;> simp [List.filterMap_cons, List.filter_cons, hc, ih]

theorem pairwise_of_all {α : Type} {r : α → α → Prop} (h : ∀ a b, r a b) :
    ∀ l : List α, l.Pairwise r := by
  intro l
  induction l with
  | nil => exact List.Pairwise.nil
  | cons x xs ih => exact List.Pairwise.cons (fun b _ => h x b) ih

theorem mem_addNew {α : Type} [DecidableEq α] (acc : List α) (x y : α) :
    y ∈ addNew acc x ↔ y ∈ acc ∨ y = x := by
  by_cases hc : x ∈ acc
  · simp [addNew, hc]
    intro he; rw [he] at *; exact hc
  · simp [addNew, hc]

/-! ## C2: response-cache TTL behaviour -/

/-- C2: for every endpoint, a fetch against a cold cache performs the
network call and stores the payload; a second fetch within the one-hour
TTL window performs no network call and returns the stored payload,
leaving the cache unchanged (so the pair issues exactly one upstream
call); a fetch after the TTL window has elapsed performs a new network
call and overwrites the cached entry with the new timestamp and
payload. -/
theorem fetch_cache_ttl {α : Type} (c : List (String × Int × α)) (e : String)
    (h0 : cacheLookup c ("fpl:" ++ e) = none)
    (t0 t1 t2 : Int) (p0 p1 p2 : α)
    (h1 : t0 ≤ t1) (h2 : t1 - t0 < CACHE_TTL) (h3 : CACHE_TTL ≤ t2 - t0) :
    (fetch c e true t0 p0).networkCall = true ∧
    (fetch (fetch c e true t0 p0).cache e true t1 p1).networkCall = false ∧
    (fetch (fetch c e true t0 p0).cache e true t1 p1).data = p0 ∧
    (fetch (fetch c e true t0 p0).cache e true t1 p1).cache =
      (fetch c e true t0 p0).cache ∧
    (fetch (fetch c e true t0 p0).cache e true t2 p2).networkCall = true ∧
    (fetch (fetch c e true t0 p0).cache e true t2 p2).data = p2 ∧
    cacheLookup (fetch (fetch c e true t0 p0).cache e true t2 p2).cache
      ("fpl:" ++ e) = some (t2, p2) := by
  have hf1 : fetch c e true t0 p0 =
      ⟨p0, cacheStore c ("fpl:" ++ e) (t0, p0), true⟩ := by
    simp [fetch, h0]
  have hlk : cacheLookup (cacheStore c ("fpl:" ++ e) (t0, p0)) ("fpl:" ++ e) =
      some (t0, p0) := cacheLookup_store c _ _
  have hnotlt : ¬(t2 - t0 < CACHE_TTL) := not_lt.mpr h3
  refine ⟨by rw [hf1], ?_, ?_, ?_, ?_, ?_, ?_⟩ <;>
    rw [hf1] <;> simp [fetch, hlk, h2, hnotlt, cacheLookup_store]

/-- C2 witness. -/
theorem fetch_cache_ttl_witness :
    cacheLookup ([] : List (String × Int × ℕ)) ("fpl:" ++ "bootstrap-static/") = none ∧
    (fetch ([] : List (String × Int × ℕ)) "bootstrap-static/" true 0 1).networkCall = true ∧
    (fetch (fetch ([] : List (String × Int × ℕ)) "bootstrap-static/" true 0 1).cache
      "bootstrap-static/" true 10 2).networkCall = false ∧
    (fetch (fetch ([] : List (String × Int × ℕ)) "bootstrap-static/" true 0 1).cache
      "bootstrap-static/" true 10 2).data = 1 ∧
    cacheLookup (fetch (fetch ([] : List (String × Int × ℕ)) "bootstrap-static/" true 0 1).cache
      "bootstrap-static/" true 3600 3).cache ("fpl:" ++ "bootstrap-static/") = some (3600, 3) := by
  have h := fetch_cache_ttl ([] : List (String × Int × ℕ)) "bootstrap-static/"
    (by decide) 0 10 3600 1 2 3 (by decide) (by decide) (by decide)
  exact ⟨by decide, h.1, h.2.1, h.2.2.1, h.2.2.2.2.2.2⟩

/-! ## C10: zero-valued numeric filters are no-ops -/

/-- C10: each numeric filter of `analyze_players` set to zero produces the
identical result as the omitted filter, because the truthiness-based
unwrap step maps a zero argument to `None` before any filtering. -/
theorem analyze_players_zero_filter_noop (a : AnalyzeArgs) (boot : Bootstrap) :
    analyze_players { a with minPrice := some 0 } boot =
      analyze_players { a with minPrice := none } boot ∧
    analyze_players { a with maxPrice := some 0 } boot =
      analyze_players { a with maxPrice := none } boot ∧
    analyze_players { a with minPoints := some 0 } boot =
      analyze_players { a with minPoints := none } boot ∧
    analyze_players { a with minOwnership := some 0 } boot =
      analyze_players { a with minOwnership := none } boot ∧
    analyze_players { a with maxOwnership := some 0 } boot =
      analyze_players { a with maxOwnership := none } boot ∧
    analyze_players { a with formThreshold := some 0 } boot =
      analyze_players { a with formThreshold := none } boot := by
  refine ⟨?_, ?_, ?_, ?_, ?_, ?_⟩ <;>
    simp [analyze_players, normalizeArgs, normQ, normI]

/-! ## C4: error propagation -/

/-- C4 counterexample: `search_player` has no try/except of its own, so an
upstream HTTP 500 during its fetch escapes to the caller as the raised
exception instead of being returned as a structured error value. -/
theorem search_player_propagates_counterexample :
    search_player (Except.error (UpError.http 500)) "salah" =
      Except.error (UpError.http 500) := rfl

/-- C4 amended: only the operations whose bodies are wrapped in try/except
return structured error values on internal failures; `search_player` and
`analyze_players` propagate their fetch failure to the caller uncaught,
while `get_league_standings` catches it and returns the structured error
dictionary. -/
theorem error_propagation_split :
    (∀ (e : UpError) (name : String),
        search_player (Except.error e) name = Except.error e) ∧
    (∀ (e : UpError) (a : AnalyzeArgs),
        analyze_players_op (Except.error e) a = Except.error e) ∧
    (∀ e : UpError, get_league_standings (Except.error e) =
        LeagueOut.err ("Failed to fetch league: " ++ upErrMsg e)) :=
  ⟨fun _ _ => rfl, fun _ _ => rfl, fun _ => rfl⟩

/-! ## C5: session state after authenticated-fetch failures -/

/-- C5: on any reachable global state, when `auth_fetch` returns an error
the session handle is absent exactly when the failure arose in the
(re-)login branch — a non-2xx/3xx login status or a transport exception
there discards the session — while a GET failure against a live,
non-expired session surfaces the error and leaves both globals exactly as
they were. -/
theorem auth_fetch_session_lifecycle {α : Type} (st : AuthState) (creds : Bool)
    (now : Int) (login : LoginOutcome) (fresh : Nat) (fo : Except String α)
    (hinv : AuthInvariant st creds) :
    (∀ msg, (auth_fetch st creds now login fresh fo).1 = AuthResult.err msg →
      (((auth_fetch st creds now login fresh fo).2.session = none) ↔
        loginPhaseFailure st creds now login)) ∧
    (needsReauth st now = false → ∀ e, fo = Except.error e →
      (auth_fetch st creds now login fresh fo).1 = AuthResult.err e ∧
      (auth_fetch st creds now login fresh fo).2 = st) := by
  by_cases hr : needsReauth st now = true
  · refine ⟨?_, ?_⟩
    · intro msg hmsg
      by_cases hc : creds = true
      · cases login with
        | status code =>
            by_cases hs : 200 ≤ code ∧ code < 400
            · cases fo with
              | ok d =>
                  exfalso
                  simp [auth_fetch, hr, hc, hs] at hmsg
              | error e =>
                  have hcall : auth_fetch st creds now (LoginOutcome.status code)
                      fresh (Except.error e : Except String α) =
                      (AuthResult.err e, ⟨some fresh, some now⟩) := by
                    simp [auth_fetch, hr, hc, hs]
                  rw [hcall]
                  constructor
                  · intro hnone
                    exact Option.noConfusion hnone
                  · rintro ⟨-, hbad | hbad | hbad⟩
                    · rw [hc] at hbad
                      exact Bool.noConfusion hbad
                    · obtain ⟨c2, hc2, hlt⟩ := hbad
                      cases hc2
                      exact absurd hs hlt
                    · obtain ⟨e2, he2⟩ := hbad
                      cases he2
            · have hcall : auth_fetch st creds now (LoginOutcome.status code)
                  fresh fo =
                  (AuthResult.err ("Auth failed: HTTP " ++ toString code),
                   ⟨none, st.lastAuthTime⟩) := by
                simp [auth_fetch, hr, hc, hs]
              rw [hcall]
              constructor
              · intro _
                exact ⟨hr, Or.inr (Or.inl ⟨code, rfl, hs⟩)⟩
              · intro _
                rfl
        | exn e =>
            have hcall : auth_fetch st creds now (LoginOutcome.exn e) fresh fo =
                (AuthResult.err e, ⟨none, st.lastAuthTime⟩) := by
              simp [auth_fetch, hr, hc]
            rw [hcall]
            constructor
            · intro _
              exact ⟨hr, Or.inr (Or.inr ⟨e, rfl⟩)⟩
            · intro _
              rfl
      · have hcf : creds = false := by
          cases creds
          · rfl
          · exact absurd rfl hc
        have hsess : st.session = none := by
          cases hss : st.session with
          | none => rfl
          | some h =>
              have := (hinv h hss).1
              rw [this] at hcf
              exact Bool.noConfusion hcf
        have hcall : auth_fetch st creds now login fresh fo =
            (AuthResult.err "FPL_EMAIL and FPL_PASSWORD required", st) := by
          simp [auth_fetch, hr, hcf]
        rw [hcall]
        constructor
        · intro _
          exact ⟨hr, Or.inl hcf⟩
        · intro _
          exact hsess
    · intro hfalse
      rw [hr] at hfalse
      exact Bool.noConfusion hfalse
  · have hrf : needsReauth st now = false := by
      cases hnr : needsReauth st now with
      | false => rfl
      | true => exact absurd hnr hr
    obtain ⟨h0, hss⟩ : ∃ h0, st.session = some h0 := by
      cases hss : st.session with
      | some h0 => exact ⟨h0, rfl⟩
      | none =>
          exfalso
          unfold needsReauth at hrf
          rw [hss] at hrf
          simp at hrf
    refine ⟨?_, ?_⟩
    · intro msg hmsg
      cases fo with
      | ok d =>
          exfalso
          simp [auth_fetch, hrf] at hmsg
      | error e =>
          have hcall : auth_fetch st creds now login fresh
              (Except.error e : Except String α) = (AuthResult.err e, st) := by
            simp [auth_fetch, hrf]
          rw [hcall]
          constructor
          · intro hnone
            rw [hss] at hnone
            exact Option.noConfusion hnone
          · rintro ⟨hbad, -⟩
            rw [hrf] at hbad
            exact Bool.noConfusion hbad
    · intro _ e hfo
      rw [hfo]
      have hcall : auth_fetch st creds now login fresh
          (Except.error e : Except String α) = (AuthResult.err e, st) := by
        simp [auth_fetch, hrf]
      rw [hcall]
      exact ⟨rfl, rfl⟩

/-- C5 witness: a failed login (HTTP 403) from the unauthenticated state
leaves the session absent; the reachability invariant holds. -/
theorem auth_fetch_session_lifecycle_witness :
    AuthInvariant ⟨none, none⟩ true ∧
    (∀ msg, (auth_fetch (⟨none, none⟩ : AuthState) true 0 (LoginOutcome.status 403) 7
        (Except.ok (0 : ℕ))).1 = AuthResult.err msg →
      (((auth_fetch (⟨none, none⟩ : AuthState) true 0 (LoginOutcome.status 403) 7
        (Except.ok (0 : ℕ))).2.session = none) ↔
        loginPhaseFailure ⟨none, none⟩ true 0 (LoginOutcome.status 403))) := by
  have hinv : AuthInvariant ⟨none, none⟩ true := by
    intro h hx
    exact Option.noConfusion hx
  exact ⟨hinv, (auth_fetch_session_lifecycle (⟨none, none⟩ : AuthState) true 0
    (LoginOutcome.status 403) 7 (Except.ok (0 : ℕ)) hinv).1⟩

/-! ## C1: compare_players best performers -/

/-- C1 counterexample: two compared players share the extremal
`total_points` value 100, yet `best_performers` names the single player
"A" (the first in the requested order) instead of marking the metric
"tie". -/
theorem compare_players_tie_counterexample :
    metricValues exFound "total_points" =
      [("A", PVal.num 100), ("B", PVal.num 100)] ∧
    bestPerformer exFound "total_points" = some "A" ∧
    "A" ≠ "tie" := by
  refine ⟨rfl, rfl, by decide⟩

/-- C1 amended: whenever `best_performers` records a winner for a metric
(which happens exactly when every collected value is numeric), the named
player attains the minimum value for `now_cost` and the maximum value for
every other metric; when several players share the extremal value, one of
them (the first in the requested order) is named rather than "tie". -/
theorem compare_players_best_extremal (found : List (String × PlayerRec))
    (m : String) (w : String) (hw : bestPerformer found m = some w) :
    ∃ vw, (w, vw) ∈ metricValues found m ∧
      ∀ nv ∈ metricValues found m,
        (m = "now_cost" → vw.numOf ≤ nv.2.numOf) ∧
        (m ≠ "now_cost" → nv.2.numOf ≤ vw.numOf) := by
  unfold bestPerformer at hw
  cases hmv : metricValues found m with
  | nil => rw [hmv] at hw; exact Option.noConfusion hw
  | cons x xs =>
      rw [hmv] at hw
      have hw2 : (if ((x :: xs).all fun nv => nv.2.isNum) = true then
          some (if m = "now_cost" then (pyMinFold (fun nv => nv.2.numOf) x xs).1
                else (pyMaxFold (fun nv => nv.2.numOf) x xs).1)
        else none) = some w := hw
      by_cases hall : ((x :: xs).all fun nv => nv.2.isNum) = true
      · rw [if_pos hall] at hw2
        by_cases hnc : m = "now_cost"
        · rw [if_pos hnc] at hw2
          have hwin := Option.some.inj hw2
          refine ⟨(pyMinFold (fun nv => nv.2.numOf) x xs).2, ?_, ?_⟩
          · rw [← hwin]
            have hmem := pyMinFold_mem (fun nv => nv.2.numOf) x xs
            simpa using hmem
          · intro nv hnv
            refine ⟨fun _ => ?_, fun hne => absurd hnc hne⟩
            exact pyMinFold_le (fun q => q.2.numOf) x xs nv hnv
        · rw [if_neg hnc] at hw2
          have hwin := Option.some.inj hw2
          refine ⟨(pyMaxFold (fun nv => nv.2.numOf) x xs).2, ?_, ?_⟩
          · rw [← hwin]
            have hmem := pyMaxFold_mem (fun nv => nv.2.numOf) x xs
            simpa using hmem
          · intro nv hnv
            refine ⟨fun heq => absurd heq hnc, fun _ => ?_⟩
            exact pyMaxFold_ge (fun q => q.2.numOf) x xs nv hnv
      · rw [if_neg hall] at hw2
        exact Option.noConfusion hw2

/-- C1 witness: a concrete comparison where the two players have distinct
prices, so the single lower-priced player "A" is the recorded `now_cost`
winner. -/
theorem compare_players_best_extremal_witness :
    bestPerformer [("A", exTieA), ("B", exTieB)] "now_cost" = some "A" ∧
    ∃ vw, ("A", vw) ∈ metricValues [("A", exTieA), ("B", exTieB)] "now_cost" ∧
      ∀ nv ∈ metricValues [("A", exTieA), ("B", exTieB)] "now_cost",
        ("now_cost" = "now_cost" → vw.numOf ≤ nv.2.numOf) ∧
        ("now_cost" ≠ "now_cost" → nv.2.numOf ≤ vw.numOf) := by
  have hb : bestPerformer [("A", exTieA), ("B", exTieB)] "now_cost" = some "A" := by
    decide
  exact ⟨hb, compare_players_best_extremal _ "now_cost" "A" hb⟩

/-! ## C3: monetary scaling in get_my_team -/

/-- C3 counterexample: with an upstream `event_transfers_cost` of 4,
`get_my_team` returns `transfers_cost = 4` unchanged, not the
divided-by-ten value 4/10 — unlike `bank` and `team_value` it is never
scaled. -/
theorem get_my_team_transfers_cost_counterexample :
    myTeamTransfersCost (get_my_team (some 123) true (some 10) exEvents
      (AuthResult.ok exPicksData) [exP1, exP2] exTeams) = 4 ∧
    myTeamBank (get_my_team (some 123) true (some 10) exEvents
      (AuthResult.ok exPicksData) [exP1, exP2] exTeams) = 25 / 10 ∧
    ¬((4 : ℚ) = 4 / 10) := by
  refine ⟨rfl, ?_, by norm_num⟩
  norm_num [myTeamBank, get_my_team, exPicksData, exHistory]

/-- C3 amended: on the success path `get_my_team` divides the upstream
integer-tenths `bank` and `value` fields by 10 and scales every squad
member's `now_cost` to `price` the same way, but returns
`event_transfers_cost` as the raw upstream integer, not divided by 10. -/
theorem get_my_team_monetary_scaling (tid : Int) (gwArg : Option Int)
    (events : List EventRec) (pd : PicksData) (players : List PlayerRec)
    (teams : List TeamRec) :
    ∃ out, get_my_team (some tid) true gwArg events (AuthResult.ok pd)
        players teams = MyTeamResult.ok out ∧
      out.bank = (pd.entryHistory.bank : ℚ) / 10 ∧
      out.teamValue = (pd.entryHistory.value : ℚ) / 10 ∧
      out.transfersCost = (pd.entryHistory.eventTransfersCost : ℚ) ∧
      (∀ fp ∈ out.active, ∃ p ∈ players, fp.price = (p.nowCost : ℚ) / 10) ∧
      (∀ fp ∈ out.bench, ∃ p ∈ players, fp.price = (p.nowCost : ℚ) / 10) := by
  refine ⟨_, rfl, rfl, rfl, rfl, ?_, ?_⟩ <;>
  · intro fp hfp
    have hfp2 := (List.perm_insertionSort
      (fun x y : FormattedPick => x.positionOrder ≤ y.positionOrder) _).mem_iff.mp
      (List.mem_of_mem_filter hfp)
    obtain ⟨pick, hpick, hfind⟩ := List.mem_filterMap.mp hfp2
    cases hfo : players.find? (fun p => decide (p.id = pick.element)) with
    | none => rw [hfo] at hfind; exact Option.noConfusion hfind
    | some p =>
        rw [hfo] at hfind
        have hp : p ∈ players := List.mem_of_find?_eq_some hfo
        have hfp3 : formatPick teams pick p = fp := Option.some.inj hfind
        exact ⟨p, hp, by rw [← hfp3]; rfl⟩

/-! ## C8: finished fixtures in fixture analysis -/

/-- C8 counterexample: a fixture marked finished that lies inside the
gameweek window is selected by the `team` branch of `analyze_fixtures` and
appears in the returned fixture list. -/
theorem analyze_fixtures_team_finished_counterexample :
    exFinishedFixture.finished = true ∧
    afFixtures (analyze_fixtures_team "arsenal" exBoot [exFinishedFixture] 5) =
      [⟨some 10, "Chelsea", "Home", 4⟩] := by
  exact ⟨rfl, by decide⟩

/-- C8 amended: `analyze_player_fixtures` and the `player` entity branch of
`analyze_fixtures` select only not-yet-finished fixtures, so every
returned fixture entry of those operations stems from an unfinished
fixture; the `team` and `position` branches select on the gameweek window
alone (the counterexample shows a finished fixture passing them). -/
theorem fixture_selection_finished_split :
    (∀ (fixtures : List Fixture) (teamId : Nat) (n : Int) (f : Fixture),
        f ∈ playerUpcomingFixtures fixtures teamId n → f.finished = false) ∧
    (∀ (fixtures : List Fixture) (teamId : Nat) (cur num : Int) (f : Fixture),
        f ∈ playerWindowFixtures fixtures teamId cur num → f.finished = false) ∧
    (∀ (pn : String) (n : Int) (boot : Bootstrap) (fixtures : List Fixture),
        ∀ entry ∈ pfFixtures (analyze_player_fixtures pn n boot fixtures),
          ∃ f ∈ fixtures, f.finished = false ∧
            ∃ tid, entry = shapeFixtureEntry boot.teams tid f) ∧
    (∀ (pn : String) (n : Int) (boot : Bootstrap) (fixtures : List Fixture),
        ∀ entry ∈ afFixtures (analyze_fixtures_player pn boot fixtures n),
          ∃ f ∈ fixtures, f.finished = false ∧
            ∃ tid, entry = shapeFixtureEntry boot.teams tid f) := by
  have hup : ∀ (fixtures : List Fixture) (teamId : Nat) (n : Int) (f : Fixture),
      f ∈ playerUpcomingFixtures fixtures teamId n →
        f ∈ fixtures ∧ f.finished = false := by
    intro fixtures teamId n f hf
    unfold playerUpcomingFixtures pySlice at hf
    have hf2 : f ∈ fixtures.filter (fun f => fixtureInvolves teamId f && !f.finished) := by
      by_cases hn : (0 : ℤ) ≤ n
      · rw [if_pos hn] at hf
        exact List.mem_of_mem_take hf
      · rw [if_neg hn] at hf
        exact List.mem_of_mem_take hf
    have hcond := List.of_mem_filter hf2
    have hmem := List.mem_of_mem_filter hf2
    simp only [Bool.and_eq_true, Bool.not_eq_true'] at hcond
    exact ⟨hmem, hcond.2⟩
  have hwin : ∀ (fixtures : List Fixture) (teamId : Nat) (cur num : Int) (f : Fixture),
      f ∈ playerWindowFixtures fixtures teamId cur num →
        f ∈ fixtures ∧ f.finished = false := by
    intro fixtures teamId cur num f hf
    unfold playerWindowFixtures at hf
    have hcond := List.of_mem_filter hf
    have hmem := List.mem_of_mem_filter hf
    simp only [Bool.and_eq_true, Bool.not_eq_true'] at hcond
    exact ⟨hmem, hcond.2⟩
  refine ⟨fun fx t n f hf => (hup fx t n f hf).2,
          fun fx t c nn f hf => (hwin fx t c nn f hf).2, ?_, ?_⟩
  · intro pn n boot fixtures entry hentry
    unfold analyze_player_fixtures at hentry
    cases hfind : boot.elements.find? (fun p => pyIn (strLower pn) (strLower p.webName)) with
    | none => rw [hfind] at hentry; exact absurd hentry (by simp [pfFixtures])
    | some player =>
        rw [hfind] at hentry
        simp only [pfFixtures] at hentry
        obtain ⟨f, hfsel, hshape⟩ := List.mem_map.mp hentry
        obtain ⟨hfmem, hffin⟩ := hup fixtures player.team n f hfsel
        exact ⟨f, hfmem, hffin, player.team, hshape.symm⟩
  · intro pn n boot fixtures entry hentry
    unfold analyze_fixtures_player at hentry
    cases hfind : boot.elements.find? (fun p => pyIn (strLower pn) (strLower p.webName)) with
    | none => rw [hfind] at hentry; exact absurd hentry (by simp [afFixtures])
    | some player =>
        rw [hfind] at hentry
        simp only [afFixtures] at hentry
        obtain ⟨f, hfsel, hshape⟩ := List.mem_map.mp hentry
        obtain ⟨hfmem, hffin⟩ :=
          hwin fixtures player.team (currentGw boot.events) n f hfsel
        exact ⟨f, hfmem, hffin, player.team, hshape.symm⟩

/-! ## C9: blank and double gameweeks -/

theorem gwTop_le (cur num : Int) :
    gwTop cur num ≤ cur + num ∧ gwTop cur num ≤ 39 := by
  unfold gwTop
  exact ⟨min_le_left _ _, min_le_right _ _⟩

theorem mem_gwRangeList (cur num gw : Int) :
    gw ∈ gwRangeList cur num ↔ cur ≤ gw ∧ gw < gwTop cur num := by
  unfold gwRangeList
  rw [List.mem_map]
  constructor
  · rintro ⟨i, hir, rfl⟩
    rw [List.mem_range] at hir
    omega
  · rintro ⟨h1, h2⟩
    refine ⟨(gw - cur).toNat, ?_, ?_⟩
    · rw [List.mem_range]
      omega
    · omega

theorem appearances_pos_iff (fixtures : List Fixture) (tid : Nat) (gw : Int) :
    appearances fixtures tid gw ≠ 0 ↔
      ∃ f ∈ fixtures, f.event = some gw ∧ (f.teamH = tid ∨ f.teamA = tid) := by
  unfold appearances
  rw [Ne, List.sum_eq_zero_iff]
  constructor
  · intro h
    by_contra hne
    push_neg at hne
    apply h
    intro x hx
    obtain ⟨f, hf, rfl⟩ := List.mem_map.mp hx
    have hev := List.of_mem_filter hf
    simp only [decide_eq_true_eq] at hev
    have hn := hne f (List.mem_of_mem_filter hf) hev
    rw [if_neg hn.1, if_neg hn.2]
    rfl
  · rintro ⟨f, hf, hev, hside⟩ h
    have hfil : f ∈ fixtures.filter (fun g => decide (g.event = some gw)) :=
      List.mem_filter.mpr ⟨hf, decide_eq_true hev⟩
    have hz := h _ (List.mem_map_of_mem _ hfil)
    rcases hside with hs | hs <;> simp [hs] at hz

theorem playsIn_iff (fixtures : List Fixture) (tid : Nat) (gw : Int) :
    playsIn fixtures tid gw = true ↔
      ∃ f ∈ fixtures, f.event = some gw ∧ (f.teamH = tid ∨ f.teamA = tid) := by
  unfold playsIn
  simp [List.any_eq_true, Bool.and_eq_true, Bool.or_eq_true, decide_eq_true_eq]

theorem blankTeams_mem (teams : List TeamRec) (fixtures : List Fixture)
    (gw : Int) (nm : String) :
    nm ∈ blankTeams teams fixtures gw ↔
      ∃ t ∈ teams, t.name = nm ∧ appearances fixtures t.id gw = 0 := by
  unfold blankTeams
  simp only [List.mem_map, List.mem_filter]
  constructor
  · rintro ⟨t, ⟨ht, hnp⟩, rfl⟩
    refine ⟨t, ht, rfl, ?_⟩
    by_contra happ
    have hp := (playsIn_iff fixtures t.id gw).mpr
      ((appearances_pos_iff fixtures t.id gw).mp happ)
    rw [hp] at hnp
    exact Bool.noConfusion hnp
  · rintro ⟨t, ht, hnm, happ⟩
    refine ⟨t, ⟨ht, ?_⟩, hnm⟩
    cases hp : playsIn fixtures t.id gw
    · rfl
    · exact absurd ((appearances_pos_iff fixtures t.id gw).mpr
        ((playsIn_iff fixtures t.id gw).mp hp)) (by simp [happ])

theorem counterKeys_foldl_mem (gw : Int) (fixtures : List Fixture)
    (init : List Nat) (x : Nat) :
    (x ∈ fixtures.foldl (fun acc f =>
        if f.event = some gw then addNew (addNew acc f.teamH) f.teamA
        else acc) init) ↔
      x ∈ init ∨ ∃ f ∈ fixtures, f.event = some gw ∧ (f.teamH = x ∨ f.teamA = x) := by
  induction fixtures generalizing init with
  | nil => simp
  | cons g gs ih =>
      rw [List.foldl_cons]
      by_cases hev : g.event = some gw
      · rw [if_pos hev, ih, mem_addNew, mem_addNew]
        constructor
        · rintro (((h | h) | h) | ⟨f, hf, hfe, hside⟩)
          · exact Or.inl h
          · exact Or.inr ⟨g, List.mem_cons_self _ _, hev, Or.inl h.symm⟩
          · exact Or.inr ⟨g, List.mem_cons_self _ _, hev, Or.inr h.symm⟩
          · exact Or.inr ⟨f, List.mem_cons_of_mem _ hf, hfe, hside⟩
        · rintro (h | ⟨f, hf, hfe, hside⟩)
          · exact Or.inl (Or.inl (Or.inl h))
          · rcases List.mem_cons.mp hf with rfl | hf2
            · rcases hside with hs | hs
              · exact Or.inl (Or.inl (Or.inr hs.symm))
              · exact Or.inl (Or.inr hs.symm)
            · exact Or.inr ⟨f, hf2, hfe, hside⟩
      · rw [if_neg hev, ih]
        constructor
        · rintro (h | ⟨f, hf, hfe, hside⟩)
          · exact Or.inl h
          · exact Or.inr ⟨f, List.mem_cons_of_mem _ hf, hfe, hside⟩
        · rintro (h | ⟨f, hf, hfe, hside⟩)
          · exact Or.inl h
          · rcases List.mem_cons.mp hf with rfl | hf2
            · exact absurd hfe hev
            · exact Or.inr ⟨f, hf2, hfe, hside⟩

theorem counterKeys_mem (fixtures : List Fixture) (gw : Int) (x : Nat) :
    x ∈ counterKeys fixtures gw ↔
      ∃ f ∈ fixtures, f.event = some gw ∧ (f.teamH = x ∨ f.teamA = x) := by
  unfold counterKeys
  rw [counterKeys_foldl_mem]
  simp

theorem teamName_of_mem (teams : List TeamRec) (t : TeamRec)
    (hids : (teams.map TeamRec.id).Nodup) (ht : t ∈ teams) :
    teamName teams t.id = t.name := by
  induction teams with
  | nil => cases ht
  | cons u us ih =>
      rw [List.map_cons, List.nodup_cons] at hids
      rcases List.mem_cons.mp ht with rfl | ht2
      · simp [teamName, teamLookup, List.find?]
      · by_cases he : u.id = t.id
        · exact absurd (he ▸ List.mem_map_of_mem TeamRec.id ht2) hids.1
        · have hrec : List.find? (fun x => decide (x.id = t.id)) (u :: us) =
              List.find? (fun x => decide (x.id = t.id)) us :=
            List.find?_cons_of_neg _ (by simp [he])
          unfold teamName teamLookup
          rw [hrec]
          exact ih hids.2 ht2

theorem doubleTeams_mem (teams : List TeamRec) (fixtures : List Fixture)
    (gw : Int) (nm : String)
    (hids : (teams.map TeamRec.id).Nodup)
    (hwf : ∀ f ∈ fixtures, (∃ t ∈ teams, t.id = f.teamH) ∧
      (∃ t ∈ teams, t.id = f.teamA)) :
    nm ∈ doubleTeams teams fixtures gw ↔
      ∃ t ∈ teams, t.name = nm ∧ 2 ≤ appearances fixtures t.id gw := by
  unfold doubleTeams
  simp only [List.mem_map, List.mem_filter]
  constructor
  · rintro ⟨tid, ⟨hkeys, hcnt⟩, rfl⟩
    have hcnt2 : 2 ≤ appearances fixtures tid gw := of_decide_eq_true hcnt
    obtain ⟨f, hf, hfe, hside⟩ := (appearances_pos_iff fixtures tid gw).mp
      (by omega)
    have ht : ∃ t ∈ teams, t.id = tid := by
      rcases hside with hs | hs
      · obtain ⟨t, htm, hte⟩ := (hwf f hf).1
        exact ⟨t, htm, by rw [hte, hs]⟩
      · obtain ⟨t, htm, hte⟩ := (hwf f hf).2
        exact ⟨t, htm, by rw [hte, hs]⟩
    obtain ⟨t, htm, rfl⟩ := ht
    exact ⟨t, htm, (teamName_of_mem teams t hids htm).symm, hcnt2⟩
  · rintro ⟨t, htm, hnm, hcnt⟩
    refine ⟨t.id, ⟨?_, decide_eq_true hcnt⟩, ?_⟩
    · exact (counterKeys_mem fixtures gw t.id).mpr
        ((appearances_pos_iff fixtures t.id gw).mp (by omega))
    · rw [teamName_of_mem teams t hids htm]
      exact hnm

theorem blank_entries_mem (n : Int) (boot : Bootstrap) (fixtures : List Fixture)
    (entry : GwEntry) :
    entry ∈ get_blank_gameweeks n boot fixtures ↔
      ∃ gw ∈ gwRangeList (currentGw boot.events) n,
        blankTeams boot.teams fixtures gw ≠ [] ∧
        entry = ⟨gw, blankTeams boot.teams fixtures gw,
                 (blankTeams boot.teams fixtures gw).length⟩ := by
  unfold get_blank_gameweeks
  rw [List.mem_filterMap]
  constructor
  · rintro ⟨gw, hgw, hsome⟩
    by_cases hb : blankTeams boot.teams fixtures gw = []
    · rw [if_pos hb] at hsome
      exact Option.noConfusion hsome
    · rw [if_neg hb] at hsome
      exact ⟨gw, hgw, hb, (Option.some.inj hsome).symm⟩
  · rintro ⟨gw, hgw, hb, rfl⟩
    exact ⟨gw, hgw, by rw [if_neg hb]⟩

theorem double_entries_mem (n : Int) (boot : Bootstrap) (fixtures : List Fixture)
    (entry : GwEntry) :
    entry ∈ get_double_gameweeks n boot fixtures ↔
      ∃ gw ∈ gwRangeList (currentGw boot.events) n,
        doubleTeams boot.teams fixtures gw ≠ [] ∧
        entry = ⟨gw, doubleTeams boot.teams fixtures gw,
                 (doubleTeams boot.teams fixtures gw).length⟩ := by
  unfold get_double_gameweeks
  rw [List.mem_filterMap]
  constructor
  · rintro ⟨gw, hgw, hsome⟩
    by_cases hb : doubleTeams boot.teams fixtures gw = []
    · rw [if_pos hb] at hsome
      exact Option.noConfusion hsome
    · rw [if_neg hb] at hsome
      exact ⟨gw, hgw, hb, (Option.some.inj hsome).symm⟩
  · rintro ⟨gw, hgw, hb, rfl⟩
    exact ⟨gw, hgw, by rw [if_neg hb]⟩

/-- C9: both gameweek tools examine exactly the gameweeks in
`[current, current + window)` capped so that no gameweek above 38 appears;
within that range a team is reported blank in a gameweek iff it appears in
zero fixtures of that gameweek, and double iff it appears in two or more,
one entry per affected gameweek carrying the affected teams. -/
theorem blank_double_gameweeks_correct (n : Int) (boot : Bootstrap)
    (fixtures : List Fixture)
    (hids : (boot.teams.map TeamRec.id).Nodup)
    (hwf : ∀ f ∈ fixtures, (∃ t ∈ boot.teams, t.id = f.teamH) ∧
      (∃ t ∈ boot.teams, t.id = f.teamA)) :
    (∀ entry ∈ get_blank_gameweeks n boot fixtures,
      currentGw boot.events ≤ entry.gameweek ∧
      entry.gameweek < currentGw boot.events + n ∧ entry.gameweek ≤ 38) ∧
    (∀ entry ∈ get_double_gameweeks n boot fixtures,
      currentGw boot.events ≤ entry.gameweek ∧
      entry.gameweek < currentGw boot.events + n ∧ entry.gameweek ≤ 38) ∧
    (∀ gw : Int, currentGw boot.events ≤ gw →
      gw < gwTop (currentGw boot.events) n → ∀ nm : String,
      ((∃ entry ∈ get_blank_gameweeks n boot fixtures,
          entry.gameweek = gw ∧ nm ∈ entry.teams) ↔
        ∃ t ∈ boot.teams, t.name = nm ∧ appearances fixtures t.id gw = 0)) ∧
    (∀ gw : Int, currentGw boot.events ≤ gw →
      gw < gwTop (currentGw boot.events) n → ∀ nm : String,
      ((∃ entry ∈ get_double_gameweeks n boot fixtures,
          entry.gameweek = gw ∧ nm ∈ entry.teams) ↔
        ∃ t ∈ boot.teams, t.name = nm ∧ 2 ≤ appearances fixtures t.id gw)) := by
  refine ⟨?_, ?_, ?_, ?_⟩
  · intro entry hent
    obtain ⟨gw, hgw, -, rfl⟩ := (blank_entries_mem n boot fixtures entry).mp hent
    have hb := (mem_gwRangeList _ _ _).mp hgw
    have htop := gwTop_le (currentGw boot.events) n
    refine ⟨hb.1, ?_, ?_⟩
    · show gw < currentGw boot.events + n
      omega
    · show gw ≤ 38
      omega
  · intro entry hent
    obtain ⟨gw, hgw, -, rfl⟩ := (double_entries_mem n boot fixtures entry).mp hent
    have hb := (mem_gwRangeList _ _ _).mp hgw
    have htop := gwTop_le (currentGw boot.events) n
    refine ⟨hb.1, ?_, ?_⟩
    · show gw < currentGw boot.events + n
      omega
    · show gw ≤ 38
      omega
  · intro gw h1 h2 nm
    constructor
    · rintro ⟨entry, hent, hge, hnm⟩
      obtain ⟨gw0, -, -, rfl⟩ := (blank_entries_mem n boot fixtures entry).mp hent
      have : gw0 = gw := hge
      rw [this] at hnm
      exact (blankTeams_mem boot.teams fixtures gw nm).mp hnm
    · intro hex
      have hnm := (blankTeams_mem boot.teams fixtures gw nm).mpr hex
      refine ⟨⟨gw, blankTeams boot.teams fixtures gw,
        (blankTeams boot.teams fixtures gw).length⟩, ?_, rfl, hnm⟩
      exact (blank_entries_mem n boot fixtures _).mpr
        ⟨gw, (mem_gwRangeList _ _ _).mpr ⟨h1, h2⟩,
         List.ne_nil_of_mem hnm, rfl⟩
  · intro gw h1 h2 nm
    constructor
    · rintro ⟨entry, hent, hge, hnm⟩
      obtain ⟨gw0, -, -, rfl⟩ := (double_entries_mem n boot fixtures entry).mp hent
      have : gw0 = gw := hge
      rw [this] at hnm
      exact (doubleTeams_mem boot.teams fixtures gw nm hids hwf).mp hnm
    · intro hex
      have hnm := (doubleTeams_mem boot.teams fixtures gw nm hids hwf).mpr hex
      refine ⟨⟨gw, doubleTeams boot.teams fixtures gw,
        (doubleTeams boot.teams fixtures gw).length⟩, ?_, rfl, hnm⟩
      exact (double_entries_mem n boot fixtures _).mpr
        ⟨gw, (mem_gwRangeList _ _ _).mpr ⟨h1, h2⟩,
         List.ne_nil_of_mem hnm, rfl⟩

/-- C9 witness: with gameweek 10 current and two Chelsea–Burnley fixtures
in it, Arsenal (zero appearances) is reportable blank and Chelsea (two
appearances) reportable double for gameweek 10. -/
theorem blank_double_gameweeks_correct_witness :
    ((exBoot.teams.map TeamRec.id).Nodup ∧
     (∀ f ∈ exGwFixtures, (∃ t ∈ exBoot.teams, t.id = f.teamH) ∧
       (∃ t ∈ exBoot.teams, t.id = f.teamA))) ∧
    ((∃ entry ∈ get_blank_gameweeks 5 exBoot exGwFixtures,
        entry.gameweek = 10 ∧ "Arsenal" ∈ entry.teams) ↔
      ∃ t ∈ exBoot.teams, t.name = "Arsenal" ∧
        appearances exGwFixtures t.id 10 = 0) ∧
    ((∃ entry ∈ get_double_gameweeks 5 exBoot exGwFixtures,
        entry.gameweek = 10 ∧ "Chelsea" ∈ entry.teams) ↔
      ∃ t ∈ exBoot.teams, t.name = "Chelsea" ∧
        2 ≤ appearances exGwFixtures t.id 10) := by
  have hids : (exBoot.teams.map TeamRec.id).Nodup := by decide
  have hwf : ∀ f ∈ exGwFixtures, (∃ t ∈ exBoot.teams, t.id = f.teamH) ∧
      (∃ t ∈ exBoot.teams, t.id = f.teamA) := by decide
  have h := blank_double_gameweeks_correct 5 exBoot exGwFixtures hids hwf
  exact ⟨⟨hids, hwf⟩,
    h.2.2.1 10 (by decide) (by decide) "Arsenal",
    h.2.2.2 10 (by decide) (by decide) "Chelsea"⟩

/-! ## C6 and C7: analyze_players filtering, truncation, summary, sorting -/

theorem pySlice_sublist {α : Type} (k : Int) (l : List α) :
    (pySlice k l).Sublist l := by
  unfold pySlice
  split
  · exact List.take_sublist _ _
  · exact List.take_sublist _ _

theorem pySlice_length_le {α : Type} (k : Int) (hk : 0 ≤ k) (l : List α) :
    ((pySlice k l).length : Int) ≤ k := by
  unfold pySlice
  rw [if_pos hk, List.length_take]
  omega

theorem sortShaped_perm (sb : String) (l : List ShapedPlayer) :
    (sortShaped sb l).Perm l := by
  unfold sortShaped
  split
  · exact List.perm_insertionSort _ _
  · exact List.perm_insertionSort _ _

theorem counterList_mem_count {α : Type} [DecidableEq α] (l : List α)
    (k : α) (c : ℕ) (h : (k, c) ∈ counterList l) : c = l.count k := by
  unfold counterList at h
  obtain ⟨k2, hk2, heq⟩ := List.mem_map.mp h
  rw [Prod.mk.injEq] at heq
  obtain ⟨h1, h2⟩ := heq
  rw [← h2, h1]

theorem pairwise_of_mem {α : Type} {r : α → α → Prop} :
    ∀ l : List α, (∀ x ∈ l, ∀ y ∈ l, r x y) → l.Pairwise r := by
  intro l
  induction l with
  | nil => intro _; exact List.Pairwise.nil
  | cons x xs ih =>
      intro h
      exact List.Pairwise.cons
        (fun b hb => h x (List.mem_cons_self _ _) b (List.mem_cons_of_mem _ hb))
        (ih fun u hu v hv =>
          h u (List.mem_cons_of_mem _ hu) v (List.mem_cons_of_mem _ hv))

theorem passes_imp_spec (b : AnalyzeArgs) (teams : List TeamRec) (p : PlayerRec)
    (h : passesFilters (b.position.map normalizePosition) b teams p = true) :
    specSatisfies teams
      ⟨b.position.map normalizePosition, b.team, b.minPrice, b.maxPrice,
       b.minPoints, b.minOwnership, b.maxOwnership, b.formThreshold⟩ p := by
  unfold passesFilters at h
  simp only [Bool.and_eq_true] at h
  obtain ⟨⟨⟨⟨⟨⟨h1, h2⟩, h3⟩, h4⟩, h5⟩, h6⟩, h7⟩ := h
  refine ⟨?_, ?_, ?_, ?_, ?_, ?_, ?_, ?_⟩
  · intro pos hpos
    replace hpos : b.position.map normalizePosition = some pos := hpos
    rw [hpos] at h1
    exact of_decide_eq_true h1
  · intro t ht
    replace ht : b.team = some t := ht
    rw [ht] at h2
    exact h2
  · intro m hm
    replace hm : b.minPrice = some m := hm
    rw [hm] at h3
    simp only [Bool.not_eq_true', decide_eq_false_iff_not] at h3
    exact le_of_not_lt h3
  · intro m hm
    replace hm : b.maxPrice = some m := hm
    rw [hm] at h4
    simp only [Bool.not_eq_true', decide_eq_false_iff_not] at h4
    exact le_of_not_lt h4
  · intro m hm
    replace hm : b.minPoints = some m := hm
    rw [hm] at h5
    simp only [Bool.not_eq_true', decide_eq_false_iff_not] at h5
    exact le_of_not_lt h5
  · intro m hm
    replace hm : b.minOwnership = some m := hm
    rw [hm] at h7
    cases hpf : pyFloat p.selectedByPercent with
    | none =>
        rw [hpf] at h7
        exact Bool.noConfusion h7
    | some ow =>
        rw [hpf] at h7
        simp only [Bool.and_eq_true, Bool.not_eq_true',
          decide_eq_false_iff_not] at h7
        exact ⟨ow, rfl, le_of_not_lt h7.1⟩
  · intro m hm
    replace hm : b.maxOwnership = some m := hm
    rw [hm] at h7
    cases hmo : b.minOwnership with
    | none =>
        rw [hmo] at h7
        cases hpf : pyFloat p.selectedByPercent with
        | none =>
            rw [hpf] at h7
            exact Bool.noConfusion h7
        | some ow =>
            rw [hpf] at h7
            simp only [Bool.and_eq_true, Bool.not_eq_true',
              decide_eq_false_iff_not] at h7
            exact ⟨ow, rfl, le_of_not_lt h7.2⟩
    | some m0 =>
        rw [hmo] at h7
        cases hpf : pyFloat p.selectedByPercent with
        | none =>
            rw [hpf] at h7
            exact Bool.noConfusion h7
        | some ow =>
            rw [hpf] at h7
            simp only [Bool.and_eq_true, Bool.not_eq_true',
              decide_eq_false_iff_not] at h7
            exact ⟨ow, rfl, le_of_not_lt h7.2⟩
  · intro ft hft
    replace hft : b.formThreshold = some ft := hft
    rw [hft] at h6
    cases hpf : pyFloat p.form with
    | none =>
        rw [hpf] at h6
        exact Bool.noConfusion h6
    | some v =>
        rw [hpf] at h6
        simp only [Bool.not_eq_true', decide_eq_false_iff_not] at h6
        exact ⟨v, rfl, le_of_not_lt h6⟩

theorem analyze_players_players_eq (a : AnalyzeArgs) (boot : Bootstrap) :
    (analyze_players a boot).players =
      pySlice a.limit (sortShaped a.sortBy (specShaped a boot)) :=
  congrArg (fun l => pySlice a.limit (sortShaped a.sortBy l))
    (filterMap_ite_eq_filter_map _ _ _)

/-- C6 counterexample: with two players passing every default filter and a
negative limit of -1, Python slicing returns one player, so the returned
list has more than `limit` entries. -/
theorem analyze_players_limit_counterexample :
    (analyze_players { limit := -1 } exBoot).players.length = 1 ∧
    ¬(((analyze_players { limit := -1 } exBoot).players.length : Int) ≤ -1) := by
  constructor
  · decide
  · decide

/-- C6 amended: every returned player of `analyze_players` stems from a
catalog player satisfying all supplied filters conjunctively; for a
nonnegative limit the returned list has at most `limit` entries (a
negative limit instead drops entries from the end, Python slice
semantics); and the summary statistics — total matches, averages, position
distribution, top-team counts — are computed over the full filtered set
before truncation. -/
theorem analyze_players_filters_limit_summary (a : AnalyzeArgs)
    (boot : Bootstrap) (hlim : 0 ≤ a.limit) :
    (∀ sp ∈ (analyze_players a boot).players,
        ∃ p ∈ boot.elements, sp = shapePlayer boot.teams p ∧
          specSatisfies boot.teams (analyze_players a boot).filtersApplied p) ∧
    (((analyze_players a boot).players.length : Int) ≤ a.limit) ∧
    (analyze_players a boot).summary.totalMatches = (specFiltered a boot).length ∧
    (analyze_players a boot).summary.averagePoints =
      pyRound (((specShaped a boot).map (fun x => (x.points : ℚ))).sum /
        ((max 1 (specShaped a boot).length : ℕ) : ℚ)) 1 ∧
    (analyze_players a boot).summary.averagePrice =
      pyRound (((specShaped a boot).map (fun x => x.price)).sum /
        ((max 1 (specShaped a boot).length : ℕ) : ℚ)) 2 ∧
    (∀ pos cnt,
      (pos, cnt) ∈ (analyze_players a boot).summary.positionDistribution →
      cnt = ((specShaped a boot).map (fun x => x.position)).count pos) ∧
    (∀ tm cnt, (tm, cnt) ∈ (analyze_players a boot).summary.topTeams →
      cnt = ((specShaped a boot).map (fun x => x.team)).count tm) := by
  have hfm := filterMap_ite_eq_filter_map
    (passesFilters ((normalizeArgs a).position.map normalizePosition)
      (normalizeArgs a) boot.teams)
    (shapePlayer boot.teams) boot.elements
  have hperm : (sortShaped a.sortBy (specShaped a boot)).Perm (specShaped a boot) :=
    sortShaped_perm _ _
  refine ⟨?_, ?_, ?_, ?_, ?_, ?_, ?_⟩
  · intro sp hsp
    rw [analyze_players_players_eq] at hsp
    have hsp2 : sp ∈ specShaped a boot :=
      hperm.mem_iff.mp ((pySlice_sublist _ _).subset hsp)
    obtain ⟨p, hp, hshape⟩ := List.mem_map.mp hsp2
    have hpf := List.mem_filter.mp hp
    exact ⟨p, hpf.1, hshape.symm,
      passes_imp_spec (normalizeArgs a) boot.teams p hpf.2⟩
  · rw [analyze_players_players_eq]
    exact pySlice_length_le a.limit hlim _
  · have h0 : (analyze_players a boot).summary.totalMatches =
        (sortShaped a.sortBy (specShaped a boot)).length :=
      congrArg (fun l => (sortShaped a.sortBy l).length) hfm
    rw [h0, hperm.length_eq]
    exact List.length_map _ _
  · have h0 : (analyze_players a boot).summary.averagePoints =
        pyRound (((sortShaped a.sortBy (specShaped a boot)).map
            (fun x => (x.points : ℚ))).sum /
          ((max 1 (sortShaped a.sortBy (specShaped a boot)).length : ℕ) : ℚ)) 1 :=
      congrArg (fun l => pyRound (((sortShaped a.sortBy l).map
        (fun x => (x.points : ℚ))).sum /
        ((max 1 (sortShaped a.sortBy l).length : ℕ) : ℚ)) 1) hfm
    rw [h0, (hperm.map _).sum_eq, hperm.length_eq]
  · have h0 : (analyze_players a boot).summary.averagePrice =
        pyRound (((sortShaped a.sortBy (specShaped a boot)).map
            (fun x => x.price)).sum /
          ((max 1 (sortShaped a.sortBy (specShaped a boot)).length : ℕ) : ℚ)) 2 :=
      congrArg (fun l => pyRound (((sortShaped a.sortBy l).map
        (fun x => x.price)).sum /
        ((max 1 (sortShaped a.sortBy l).length : ℕ) : ℚ)) 2) hfm
    rw [h0, (hperm.map _).sum_eq, hperm.length_eq]
  · intro pos cnt hmem
    have h0 : (analyze_players a boot).summary.positionDistribution =
        counterList ((sortShaped a.sortBy (specShaped a boot)).map
          (fun x => x.position)) :=
      congrArg (fun l => counterList ((sortShaped a.sortBy l).map
        (fun x : ShapedPlayer => x.position))) hfm
    rw [h0] at hmem
    rw [counterList_mem_count _ _ _ hmem]
    exact (hperm.map _).count_eq pos
  · intro tm cnt hmem
    have h0 : (analyze_players a boot).summary.topTeams =
        (List.insertionSort (fun x y => y.2 ≤ x.2)
          (counterList ((sortShaped a.sortBy (specShaped a boot)).map
            (fun x => x.team)))).take 10 :=
      congrArg (fun l => (List.insertionSort
        (fun x y : String × ℕ => y.2 ≤ x.2)
        (counterList ((sortShaped a.sortBy l).map
          (fun x : ShapedPlayer => x.team)))).take 10) hfm
    rw [h0] at hmem
    have hmem2 := (List.perm_insertionSort _ _).mem_iff.mp
      ((List.take_sublist _ _).subset hmem)
    rw [counterList_mem_count _ _ _ hmem2]
    exact (hperm.map _).count_eq tm

/-- C6 witness at the default arguments over the two-player catalog. -/
theorem analyze_players_filters_limit_summary_witness :
    ((0 : Int) ≤ ({} : AnalyzeArgs).limit) ∧
    (((analyze_players {} exBoot).players.length : Int) ≤
      ({} : AnalyzeArgs).limit) := by
  exact ⟨by decide,
    (analyze_players_filters_limit_summary {} exBoot (by decide)).2.1⟩

/-- C7 counterexample: sorting by the non-numeric field "name" does not
fall back to total points: every key is 0, so the stable sort leaves the
filtered order [1 point, 5 points] intact instead of producing the
descending-points order. -/
theorem analyze_players_sort_counterexample :
    ((analyze_players { sortBy := "name" } exBoot).players.map
      (fun sp => sp.points)) = [1, 5] ∧
    shapedSortKey "name" (shapePlayer exTeams exP1) = some 0 ∧
    shapedSortKey "name" (shapePlayer exTeams exP2) = some 0 ∧
    ¬ List.Pairwise (fun x y : Int => y ≤ x) [(1 : Int), 5] := by
  refine ⟨by decide, by decide, by decide, by decide⟩

/-- C7 amended: when every sort key evaluates (no digits-and-dots string
with two or more dots), `analyze_players` returns the players in
descending order of the numeric sort key, where a non-numeric or missing
field keys as 0; in particular when all keys are 0 the filtered order is
simply preserved — the fall back to total points happens only when key
evaluation raises. -/
theorem analyze_players_sort_amended (a : AnalyzeArgs) (boot : Bootstrap)
    (hkeys : ∀ sp ∈ specShaped a boot,
      (shapedSortKey a.sortBy sp).isSome = true) :
    List.Pairwise (fun x y => keyD a.sortBy y ≤ keyD a.sortBy x)
      ((analyze_players a boot).players) ∧
    ((∀ sp ∈ specShaped a boot, shapedSortKey a.sortBy sp = some 0) →
      (analyze_players a boot).players =
        pySlice a.limit (specShaped a boot)) := by
  have hall : (specShaped a boot).all
      (fun sp => (shapedSortKey a.sortBy sp).isSome) = true :=
    List.all_eq_true.mpr hkeys
  constructor
  · have hsorted : List.Pairwise (fun x y => keyD a.sortBy y ≤ keyD a.sortBy x)
        (sortShaped a.sortBy (specShaped a boot)) := by
      unfold sortShaped
      rw [if_pos hall]
      haveI : IsTotal ShapedPlayer
          (fun x y => keyD a.sortBy y ≤ keyD a.sortBy x) :=
        ⟨fun x y => le_total _ _⟩
      haveI : IsTrans ShapedPlayer
          (fun x y => keyD a.sortBy y ≤ keyD a.sortBy x) :=
        ⟨fun _ _ _ h1 h2 => le_trans h2 h1⟩
      exact List.sorted_insertionSort _ _
    rw [analyze_players_players_eq]
    exact hsorted.sublist (pySlice_sublist _ _)
  · intro hzero
    have hsorted0 : List.Sorted
        (fun x y => keyD a.sortBy y ≤ keyD a.sortBy x) (specShaped a boot) := by
      refine pairwise_of_mem _ fun x hx y hy => ?_
      unfold keyD
      rw [hzero x hx, hzero y hy]
    have heq : sortShaped a.sortBy (specShaped a boot) = specShaped a boot := by
      unfold sortShaped
      rw [if_pos hall]
      exact hsorted0.insertionSort_eq
    rw [analyze_players_players_eq, heq]

/-- C7 witness at the default sort field over the two-player catalog. -/
theorem analyze_players_sort_amended_witness :
    (∀ sp ∈ specShaped {} exBoot,
      (shapedSortKey ({} : AnalyzeArgs).sortBy sp).isSome = true) ∧
    List.Pairwise
      (fun x y => keyD ({} : AnalyzeArgs).sortBy y ≤ keyD ({} : AnalyzeArgs).sortBy x)
      ((analyze_players {} exBoot).players) := by
  have hk : ∀ sp ∈ specShaped {} exBoot,
      (shapedSortKey ({} : AnalyzeArgs).sortBy sp).isSome = true := by decide
  exact ⟨hk, (analyze_players_sort_amended {} exBoot hk).1⟩

end FPL
